import Mathlib

/-!
# Texas Hold'em calculator — verification of the hand-evaluation and
# probability-estimation core

Shallow embedding, in Lean 4, of the core libraries of the
`texasholdemcalculator` repository:

* `src/lib/card-utils/src/card-utils.ts` (card model, deck, validation,
  parsing),
* `src/lib/card-utils/src/deck.ts` (remaining-card and simulation deal
  utilities),
* `src/lib/poker-engine/src/evaluation.ts` (hand evaluator),
* `src/lib/poker-engine/src/probability.ts` (probability estimator, odds
  formatting, outs calculator),
* `src/lib/poker-engine/src/poker-engine.ts` (public entry points).

Modelling conventions:

* TypeScript string-union types `Suit` and `Rank` become inductive types;
  the remaining `Card` fields (`value`, `display`, `id`) stay free data
  fields, exactly as in the TS interface, so that the structural
  validation in `validateCards` is meaningful.
* JavaScript numbers are modelled as `Int`/`Nat` where the code only ever
  holds integers, and as `ℚ` for probabilities.  `NaN` is modelled as
  `none` in an `Option` where it can arise.
* Functions that `throw` return `Except String` carrying the thrown
  error-code string.
* `Array.prototype.sort` is stable (ES2019); a stable sort is modelled by
  a stable insertion sort, which produces the same list as any stable
  sort with the same comparator.
* `Math.random`-driven shuffling is abstracted as an explicit
  `Nat → Deck → Deck` parameter (one shuffle function per simulation
  iteration).
-/

namespace TexasHoldem

/-- `Suit` from `src/types/card.ts`. -/
inductive Suit where
  | hearts | diamonds | clubs | spades
deriving DecidableEq, Repr

/-- `Rank` from `src/types/card.ts` (the rank `"10"` is `r10`). -/
inductive Rank where
  | rA | r2 | r3 | r4 | r5 | r6 | r7 | r8 | r9 | r10 | rJ | rQ | rK
deriving DecidableEq, Repr

/-- `SUITS` from `src/types/card.ts`. -/
def SUITS : List Suit := [.hearts, .diamonds, .clubs, .spades]

/-- `RANKS` from `src/types/card.ts`. -/
def RANKS : List Rank :=
  [.rA, .r2, .r3, .r4, .r5, .r6, .r7, .r8, .r9, .r10, .rJ, .rQ, .rK]

/-- The rank string as written in the TS union type (`'A'`, `'2'`, …, `'10'`, …, `'K'`). -/
def rankStr : Rank → String
  | .rA => "A" | .r2 => "2" | .r3 => "3" | .r4 => "4" | .r5 => "5"
  | .r6 => "6" | .r7 => "7" | .r8 => "8" | .r9 => "9" | .r10 => "10"
  | .rJ => "J" | .rQ => "Q" | .rK => "K"

/-- The suit string as written in the TS union type. -/
def suitStr : Suit → String
  | .hearts => "hearts" | .diamonds => "diamonds" | .clubs => "clubs" | .spades => "spades"

/-- `SUIT_SYMBOLS` from `src/types/card.ts`. -/
def SUIT_SYMBOLS : Suit → String
  | .hearts => "♥" | .diamonds => "♦" | .clubs => "♣" | .spades => "♠"

/-- `SUIT_ABBREVIATIONS` from `src/types/card.ts`. -/
def SUIT_ABBREVIATIONS : Suit → String
  | .hearts => "H" | .diamonds => "D" | .clubs => "C" | .spades => "S"

/-- `CARD_VALUES` from `src/types/card.ts` (Ace high). -/
def CARD_VALUES : Rank → Int
  | .rA => 14 | .r2 => 2 | .r3 => 3 | .r4 => 4 | .r5 => 5 | .r6 => 6 | .r7 => 7
  | .r8 => 8 | .r9 => 9 | .r10 => 10 | .rJ => 11 | .rQ => 12 | .rK => 13

/-- `Card` from `src/types/card.ts`: `value`, `display` and `id` are plain
data fields (derived by `createCard`, but checked — not trusted — by
`validateCards`). -/
structure Card where
  suit : Suit
  rank : Rank
  value : Int
  display : String
  id : String
deriving DecidableEq, Repr

instance : Inhabited Card := ⟨⟨.hearts, .rA, 14, "A♥", "AH"⟩⟩

/-- `createCard` from `card-utils.ts`.  The two `throw` branches
(`INVALID_SUIT`/`INVALID_RANK`) guard `SUITS.includes(suit)` and
`RANKS.includes(rank)`, which always hold for values of the union types,
so the embedding is total. -/
def createCard (suit : Suit) (rank : Rank) : Card :=
  { suit := suit
    rank := rank
    value := CARD_VALUES rank
    display := rankStr rank ++ SUIT_SYMBOLS suit
    id := rankStr rank ++ SUIT_ABBREVIATIONS suit }

/-- `Deck` from `src/types/card.ts`. -/
structure Deck where
  availableCards : List Card
  usedCards : List Card
  totalCards : Nat
deriving DecidableEq, Repr

/-- `createDeck` from `card-utils.ts`: all ranks of each suit, suits in
`SUITS` order, ranks in `RANKS` order. -/
def createDeck : Deck :=
  { availableCards := SUITS.flatMap fun suit => RANKS.map fun rank => createCard suit rank
    usedCards := []
    totalCards := 52 }

/-- The record returned by `dealCards`. -/
structure DealResult where
  dealtCards : List Card
  remainingDeck : Deck
deriving DecidableEq, Repr

/-- `dealCards` from `card-utils.ts`. -/
def dealCards (deck : Deck) (count : Nat) : Except String DealResult :=
  if count > deck.availableCards.length then
    .error "INSUFFICIENT_CARDS"
  else
    .ok { dealtCards := deck.availableCards.take count
          remainingDeck :=
            { availableCards := deck.availableCards.drop count
              usedCards := deck.usedCards ++ deck.availableCards.take count
              totalCards := 52 } }

/-- `ValidationError` from `src/types/card.ts`. -/
structure ValidationError where
  code : String
  message : String
  field : Option String := none
deriving DecidableEq, Repr

/-- `ValidationResult` from `src/types/card.ts`. -/
structure ValidationResult where
  isValid : Bool
  errors : List ValidationError
deriving DecidableEq, Repr

/-- The errors contributed by one card in the `validateCards` loop, given
the ids already seen.  The `SUITS.includes`/`RANKS.includes` checks are
kept even though they cannot fail for union-typed values. -/
def cardErrors (seen : List String) (card : Card) : List ValidationError :=
  (if seen.contains card.id then
    [{ code := "DUPLICATE_CARD"
       message := "Card already exists: " ++ card.display
       field := some card.id }]
  else []) ++
  (if ¬ SUITS.contains card.suit then
    [{ code := "INVALID_SUIT"
       message := "Invalid suit: " ++ suitStr card.suit
       field := some card.id }]
  else []) ++
  (if ¬ RANKS.contains card.rank then
    [{ code := "INVALID_RANK"
       message := "Invalid rank: " ++ rankStr card.rank
       field := some card.id }]
  else []) ++
  (if card.value ≠ CARD_VALUES card.rank then
    [{ code := "INVALID_VALUE"
       message := "Incorrect value for " ++ rankStr card.rank ++ ": expected " ++
         toString (CARD_VALUES card.rank) ++ ", got " ++ toString card.value
       field := some card.id }]
  else []) ++
  (if card.display ≠ rankStr card.rank ++ SUIT_SYMBOLS card.suit then
    [{ code := "INVALID_DISPLAY"
       message := "Incorrect display format: expected " ++
         (rankStr card.rank ++ SUIT_SYMBOLS card.suit) ++ ", got " ++ card.display
       field := some card.id }]
  else []) ++
  (if card.id ≠ rankStr card.rank ++ SUIT_ABBREVIATIONS card.suit then
    [{ code := "INVALID_ID"
       message := "Incorrect ID format: expected " ++
         (rankStr card.rank ++ SUIT_ABBREVIATIONS card.suit) ++ ", got " ++ card.id
       field := some card.id }]
  else [])

/-- The `validateCards` loop: `seen` is the `seenIds` set (each card's id is
added after its duplicate check, duplicates included). -/
def validateCardsGo (seen : List String) : List Card → List ValidationError
  | [] => []
  | card :: rest => cardErrors seen card ++ validateCardsGo (seen ++ [card.id]) rest

/-- `validateCards` from `card-utils.ts`. -/
def validateCards (cards : List Card) : ValidationResult :=
  let errors := validateCardsGo [] cards
  { isValid := errors.isEmpty, errors := errors }

/-- The `stageRequirements` record in `validatePokerHand` (`undefined`
lookup modelled by `none`). -/
def stageRequirements : String → Option Nat
  | "pre-flop" => some 0
  | "flop" => some 3
  | "turn" => some 4
  | "river" => some 5
  | _ => none

/-- `validatePokerHand` from `card-utils.ts`. -/
def validatePokerHand (playerHand communityCards : List Card) (stage : String) :
    ValidationResult :=
  let allCards := playerHand ++ communityCards
  let cardValidation := validateCards allCards
  let cardErrs := if cardValidation.isValid then [] else cardValidation.errors
  let sizeErrs : List ValidationError :=
    if stage ≠ "pre-flop" ∧ playerHand.length ≠ 2 then
      [{ code := "INVALID_PLAYER_HAND_SIZE"
         message := "Player hand must have exactly 2 cards, got " ++
           toString playerHand.length }]
    else []
  let communityErrs : List ValidationError :=
    match stageRequirements stage with
    | some expected =>
        if communityCards.length ≠ expected then
          [{ code := "INVALID_COMMUNITY_CARDS"
             message := stage ++ " stage requires " ++ toString expected ++
               " community cards, got " ++ toString communityCards.length }]
        else []
    | none => []
  let errors := cardErrs ++ sizeErrs ++ communityErrs
  { isValid := errors.isEmpty, errors := errors }

/-- The `suitMap` record in `parseCard` (`undefined` lookup modelled by
`none`). -/
def suitMap (c : Char) : Option Suit :=
  if c = 'H' then some .hearts
  else if c = 'D' then some .diamonds
  else if c = 'C' then some .clubs
  else if c = 'S' then some .spades
  else none

/-- `String.prototype.toUpperCase` restricted to one character.  Beyond
ASCII, the only code point whose JS uppercase is one of the `suitMap`
keys `H`/`D`/`C`/`S` is `ſ` (U+017F LATIN SMALL LETTER LONG S → `S`);
every other non-ASCII character either maps to itself or to a character
that is not a `suitMap` key, so `Char.toUpper` agrees with JS wherever
`suitMap` looks at the result. -/
def jsToUpper (c : Char) : Char :=
  if c = 'ſ' then 'S' else c.toUpper

/-- Single-character rank tokens: `cardString.charAt(0) as Rank` followed by
`RANKS.includes(rank)`.  The entry `'10'` of `RANKS` is two characters and
can never equal `charAt(0)`, so it is absent here. -/
def charToRank (c : Char) : Option Rank :=
  if c = 'A' then some .rA
  else if c = '2' then some .r2
  else if c = '3' then some .r3
  else if c = '4' then some .r4
  else if c = '5' then some .r5
  else if c = '6' then some .r6
  else if c = '7' then some .r7
  else if c = '8' then some .r8
  else if c = '9' then some .r9
  else if c = 'J' then some .rJ
  else if c = 'Q' then some .rQ
  else if c = 'K' then some .rK
  else none

/-- `parseCard` from `card-utils.ts`, on the card string's character list.
`charAt(i)` past the end of the string is the empty string in JS, whose
`toUpperCase()` is not a `suitMap` key; this is the `[c0, c1]` branch for
a two-character string starting with `"10"`. -/
def parseCard : List Char → Except String Card
  | [] => .error "INVALID_CARD_STRING"
  | [_] => .error "INVALID_CARD_STRING"
  | c0 :: c1 :: rest =>
    if c0 = '1' ∧ c1 = '0' then
      match rest with
      | [] => .error "INVALID_CARD_STRING"
      | c2 :: _ =>
        match suitMap (jsToUpper c2) with
        | none => .error "INVALID_CARD_STRING"
        | some suit => .ok (createCard suit .r10)
    else
      match suitMap (jsToUpper c1) with
      | none => .error "INVALID_CARD_STRING"
      | some suit =>
        match charToRank c0 with
        | none => .error "INVALID_CARD_STRING"
        | some rank => .ok (createCard suit rank)

instance : Inhabited Rank := ⟨.rA⟩

/-- Stable insertion into a sorted list: `keep y x` means the already-placed
`y` stays in front of the incoming `x` (so `x` lands after every equal
element — exactly the stable-sort placement). -/
def insertStable (keep : α → α → Bool) (x : α) : List α → List α
  | [] => [x]
  | y :: ys => if keep y x then y :: insertStable keep x ys else x :: y :: ys

/-- Stable sort by repeated insertion.  `Array.prototype.sort` is required
to be stable (ES2019), and a stable sort's output is determined by the
comparator, so this models the source's `sort` calls exactly. -/
def stableSort (keep : α → α → Bool) (l : List α) : List α :=
  l.foldl (fun acc x => insertStable keep x acc) []

/-- `[...cards].sort((a, b) => b.value - a.value)`: stable, descending by
`value`. -/
def sortCardsDesc (cards : List Card) : List Card :=
  stableSort (fun y x => decide (x.value ≤ y.value)) cards

/-- The keys of a JS object built by insertion, in insertion order
(first occurrence of each element). -/
def keysInOrder [DecidableEq α] (l : List α) : List α :=
  l.foldl (fun acc x => if x ∈ acc then acc else acc ++ [x]) []

/-- `HandEvaluation` from `src/types/poker.ts`. -/
structure HandEvaluation where
  bestHand : List Card
  handStrength : Nat
  kickers : List Card
  description : String
deriving DecidableEq, Repr

-- The `HandStrength` enum from `src/types/poker.ts`, as its numeric values.
namespace HandStrength

def HIGH_CARD : Nat := 0
def PAIR : Nat := 1
def TWO_PAIR : Nat := 2
def THREE_OF_A_KIND : Nat := 3
def STRAIGHT : Nat := 4
def FLUSH : Nat := 5
def FULL_HOUSE : Nat := 6
def FOUR_OF_A_KIND : Nat := 7
def STRAIGHT_FLUSH : Nat := 8
def ROYAL_FLUSH : Nat := 9

end HandStrength

/-- `countRanks(cards)[r]` from `evaluation.ts` (0 when absent). -/
def countRank (cards : List Card) (r : Rank) : Nat :=
  (cards.map Card.rank).count r

/-- `countSuits(cards)[s]` from `evaluation.ts` (0 when absent). -/
def countSuit (cards : List Card) (s : Suit) : Nat :=
  (cards.map Card.suit).count s

/-- `Object.keys(countRanks(cards))`, in insertion order. -/
def rankKeys (cards : List Card) : List Rank :=
  keysInOrder (cards.map Card.rank)

/-- `Object.keys(countSuits(cards))`, in insertion order. -/
def suitKeys (cards : List Card) : List Suit :=
  keysInOrder (cards.map Card.suit)

/-- `checkFlush` from `evaluation.ts`. -/
def checkFlush (cards : List Card) : Option HandEvaluation :=
  match (suitKeys cards).find? (fun suit => decide (5 ≤ countSuit cards suit)) with
  | some flushSuit =>
    let flushCards := (cards.filter fun c => decide (c.suit = flushSuit)).take 5
    some { bestHand := flushCards
           handStrength := HandStrength.FLUSH
           kickers := flushCards.drop 1
           description := "Flush, " ++ flushCards.headI.display ++ " high" }
  | none => none

/-- The scan `for i in 0..len-5: uniqueValues[i] - uniqueValues[i+4] == 4`
in `checkStraight`, returning the first matching `uniqueValues[i]`. -/
def findStraightHigh : List Int → Option Int
  | [] => none
  | a :: rest =>
    match rest[3]? with
    | some b => if a - b = 4 then some a else findStraightHigh rest
    | none => none

/-- `[...new Set(cards.map(c => c.value))].sort((a, b) => b - a)`:
the distinct values, descending. -/
def uniqueValuesDesc (cards : List Card) : List Int :=
  stableSort (fun y x => decide (x ≤ y)) (keysInOrder (cards.map Card.value))

/-- `checkStraight` from `evaluation.ts` (the regular scan, then the
A-2-3-4-5 wheel). -/
def checkStraight (cards : List Card) : Option HandEvaluation :=
  match findStraightHigh (uniqueValuesDesc cards) with
  | some hi =>
    let straightCards :=
      (cards.filter fun c => decide (hi - 4 ≤ c.value ∧ c.value ≤ hi)).take 5
    some { bestHand := straightCards
           handStrength := HandStrength.STRAIGHT
           kickers := []
           description := "Straight, " ++ straightCards.headI.display ++ " high" }
  | none =>
    if cards.any (fun c => decide (c.rank = .rA)) &&
       cards.any (fun c => decide (c.rank = .r2)) &&
       cards.any (fun c => decide (c.rank = .r3)) &&
       cards.any (fun c => decide (c.rank = .r4)) &&
       cards.any (fun c => decide (c.rank = .r5)) then
      some { bestHand :=
               [(cards.find? fun c => decide (c.rank = .r5)).getD default,
                (cards.find? fun c => decide (c.rank = .r4)).getD default,
                (cards.find? fun c => decide (c.rank = .r3)).getD default,
                (cards.find? fun c => decide (c.rank = .r2)).getD default,
                (cards.find? fun c => decide (c.rank = .rA)).getD default]
             handStrength := HandStrength.STRAIGHT
             kickers := []
             description := "Straight, 5 high (wheel)" }
    else none

/-- `royalRanks` from `checkRoyalFlush`. -/
def royalRanks : List Rank := [.rA, .rK, .rQ, .rJ, .r10]

/-- `checkRoyalFlush` from `evaluation.ts`. -/
def checkRoyalFlush (cards : List Card) : Option HandEvaluation :=
  match checkFlush cards with
  | none => none
  | some _ =>
    if royalRanks.all (fun r => (cards.map Card.rank).contains r) then
      some { bestHand := cards
             handStrength := HandStrength.ROYAL_FLUSH
             kickers := []
             description := "Royal Flush of " ++ suitStr cards.headI.suit }
    else none

/-- `checkStraightFlush` from `evaluation.ts`. -/
def checkStraightFlush (cards : List Card) : Option HandEvaluation :=
  match checkFlush cards, checkStraight cards with
  | some _, some _ =>
    some { bestHand := cards
           handStrength := HandStrength.STRAIGHT_FLUSH
           kickers := []
           description := "Straight Flush, " ++ cards.headI.display ++ " high" }
  | _, _ => none

/-- `checkFourOfAKind` from `evaluation.ts`. -/
def checkFourOfAKind (cards : List Card) : Option HandEvaluation :=
  match (rankKeys cards).find? (fun r => decide (countRank cards r = 4)) with
  | some fourRank =>
    let fourCards := cards.filter fun c => decide (c.rank = fourRank)
    let kicker := (cards.find? fun c => decide (c.rank ≠ fourRank)).getD default
    some { bestHand := fourCards ++ [kicker]
           handStrength := HandStrength.FOUR_OF_A_KIND
           kickers := [kicker]
           description := "Four of a Kind, " ++ rankStr fourRank ++ "s" }
  | none => none

/-- `checkFullHouse` from `evaluation.ts`. -/
def checkFullHouse (cards : List Card) : Option HandEvaluation :=
  match (rankKeys cards).find? (fun r => decide (countRank cards r = 3)),
        (rankKeys cards).find? (fun r => decide (countRank cards r = 2)) with
  | some threeRank, some pairRank =>
    let threeCards := cards.filter fun c => decide (c.rank = threeRank)
    let pairCards := cards.filter fun c => decide (c.rank = pairRank)
    some { bestHand := threeCards ++ pairCards
           handStrength := HandStrength.FULL_HOUSE
           kickers := []
           description := "Full House, " ++ rankStr threeRank ++ "s over " ++
             rankStr pairRank ++ "s" }
  | _, _ => none

/-- `checkThreeOfAKind` from `evaluation.ts`. -/
def checkThreeOfAKind (cards : List Card) : Option HandEvaluation :=
  match (rankKeys cards).find? (fun r => decide (countRank cards r = 3)) with
  | some threeRank =>
    let threeCards := cards.filter fun c => decide (c.rank = threeRank)
    let kickers :=
      (sortCardsDesc (cards.filter fun c => decide (c.rank ≠ threeRank))).take 2
    some { bestHand := threeCards ++ kickers
           handStrength := HandStrength.THREE_OF_A_KIND
           kickers := kickers
           description := "Three of a Kind, " ++ rankStr threeRank ++ "s" }
  | none => none

/-- `checkTwoPair` from `evaluation.ts`. -/
def checkTwoPair (cards : List Card) : Option HandEvaluation :=
  let pairs := (rankKeys cards).filter fun r => decide (countRank cards r = 2)
  if 2 ≤ pairs.length then
    let pairValue := fun r => ((cards.find? fun c => decide (c.rank = r)).getD default).value
    let sortedPairs := stableSort (fun a b => decide (pairValue b ≤ pairValue a)) pairs
    let higherRank := sortedPairs.headI
    let lowerRank := sortedPairs.tail.headI
    let higherPair := cards.filter fun c => decide (c.rank = higherRank)
    let lowerPair := cards.filter fun c => decide (c.rank = lowerRank)
    let kicker :=
      (sortCardsDesc (cards.filter fun c => decide (¬ pairs.contains c.rank))).headI
    some { bestHand := higherPair ++ lowerPair ++ [kicker]
           handStrength := HandStrength.TWO_PAIR
           kickers := [kicker]
           description := "Two Pair, " ++ rankStr higherRank ++ "s and " ++
             rankStr lowerRank ++ "s" }
  else none

/-- `checkOnePair` from `evaluation.ts`. -/
def checkOnePair (cards : List Card) : Option HandEvaluation :=
  match (rankKeys cards).find? (fun r => decide (countRank cards r = 2)) with
  | some pairRank =>
    let pairCards := cards.filter fun c => decide (c.rank = pairRank)
    let kickers :=
      (sortCardsDesc (cards.filter fun c => decide (c.rank ≠ pairRank))).take 3
    some { bestHand := pairCards ++ kickers
           handStrength := HandStrength.PAIR
           kickers := kickers
           description := "Pair of " ++ rankStr pairRank ++ "s" }
  | none => none

/-- `evaluateFiveCardHand` from `evaluation.ts`: the checks from strongest
to weakest, on the value-descending sorted cards. -/
def evaluateFiveCardHand (cards : List Card) : HandEvaluation :=
  let sortedCards := sortCardsDesc cards
  match checkRoyalFlush sortedCards with
  | some result => result
  | none =>
  match checkStraightFlush sortedCards with
  | some result => result
  | none =>
  match checkFourOfAKind sortedCards with
  | some result => result
  | none =>
  match checkFullHouse sortedCards with
  | some result => result
  | none =>
  match checkFlush sortedCards with
  | some result => result
  | none =>
  match checkStraight sortedCards with
  | some result => result
  | none =>
  match checkThreeOfAKind sortedCards with
  | some result => result
  | none =>
  match checkTwoPair sortedCards with
  | some result => result
  | none =>
  match checkOnePair sortedCards with
  | some result => result
  | none =>
    { bestHand := sortedCards
      handStrength := HandStrength.HIGH_CARD
      kickers := sortedCards.drop 1
      description := "High Card, " ++ sortedCards.headI.display ++ " high" }

/-- `getCombinations` from `evaluation.ts` (all `k`-card combinations,
the ones omitting the first card listed first). -/
def getCombinations : List α → Nat → List (List α)
  | _, 0 => [[]]
  | [], _ + 1 => []
  | first :: rest, k + 1 =>
    getCombinations rest (k + 1) ++ (getCombinations rest k).map (first :: ·)

/-- The kicker loop of `compareHands`: first index at which the values
differ decides (`kickers[i]?.value || 0` is 0 past the end). -/
def firstKickerDiff : List (Int × Int) → Int
  | [] => 0
  | (a, b) :: rest => if a ≠ b then a - b else firstKickerDiff rest

/-- `compareHands` from `evaluation.ts`. -/
def compareHands (hand1 hand2 : HandEvaluation) : Int :=
  if hand1.handStrength ≠ hand2.handStrength then
    (hand1.handStrength : Int) - hand2.handStrength
  else
    firstKickerDiff <|
      (List.range (max hand1.kickers.length hand2.kickers.length)).map fun i =>
        (((hand1.kickers[i]?).map Card.value).getD 0,
         ((hand2.kickers[i]?).map Card.value).getD 0)

/-- One step of the best-hand fold in `findBestFiveCardHand`. -/
def pickBetter (best : Option HandEvaluation) (combo : List Card) :
    Option HandEvaluation :=
  let evaluation := evaluateFiveCardHand combo
  match best with
  | none => some evaluation
  | some b =>
    if b.handStrength < evaluation.handStrength then some evaluation
    else if evaluation.handStrength = b.handStrength ∧ 0 < compareHands evaluation b then
      some evaluation
    else some b

/-- `findBestFiveCardHand` from `evaluation.ts` (`none` only when there is
no 5-card combination, where the source's `bestHand!` assertion would
fail). -/
def findBestFiveCardHand (cards : List Card) : Option HandEvaluation :=
  (getCombinations cards 5).foldl pickBetter none

/-- `evaluatePokerHand` from `evaluation.ts`. -/
def evaluatePokerHand (cards : List Card) : Except String HandEvaluation :=
  if cards.length < 5 then .error "INSUFFICIENT_CARDS"
  else if cards.length = 5 then .ok (evaluateFiveCardHand cards)
  else
    match findBestFiveCardHand cards with
    | some best => .ok best
    | none => .error "TypeError"

/-- `getRemainingCards` from `deck.ts`: the full deck minus the known ids. -/
def getRemainingCards (knownCards : List Card) : List Card :=
  let knownIds := knownCards.map Card.id
  createDeck.availableCards.filter fun card => decide (¬ knownIds.contains card.id)

/-- `simulateDeal` from `deck.ts`.  The `shuffleDeck` call (Fisher–Yates on
`Math.random`) is abstracted as the `shuffleFn` parameter, indexed by the
iteration number.  The `dealCards` error branch is unreachable because the
count is clamped by `Math.min` to the available length. -/
def simulateDeal (shuffleFn : Nat → Deck → Deck) (knownCards : List Card)
    (numSimulations : Nat) : List (List Card) :=
  let availableCards := getRemainingCards knownCards
  (List.range numSimulations).map fun i =>
    let simulationDeck : Deck :=
      { availableCards := availableCards
        usedCards := knownCards
        totalCards := 52 }
    let shuffled := shuffleFn i simulationDeck
    let neededCards : Int := 7 - (knownCards.length : Int)
    if 0 < neededCards then
      match dealCards shuffled (min neededCards.toNat shuffled.availableCards.length) with
      | .ok result => knownCards ++ result.dealtCards
      | .error _ => knownCards
    else knownCards

/-- A JavaScript value reaching the `numSimulations` slot of
`calculateUsingSimulation`: the TS type is `number`, but
`calculateUsingExact` (probability.ts line 123) passes the `stage` string
there, so the embedding keeps both shapes. -/
inductive JSVal where
  | num (n : ℚ)
  | str (s : String)
deriving DecidableEq, Repr

/-- JS `ToNumber` on the values above, `none` for `NaN`.  For strings this
models the conversion for decimal-digit strings and for strings containing
a non-digit character (such as the four stage names); signs, whitespace,
fraction points and the empty string do not occur here. -/
def jsToNumber : JSVal → Option ℚ
  | .num n => some n
  | .str s =>
    if s.data ≠ [] ∧ s.data.all Char.isDigit then
      some ((s.data.foldl (fun acc c => acc * 10 + (c.toNat - 48)) 0 : Nat) : ℚ)
    else none

/-- The number of iterations of `for (let i = 0; i < v; i++)`:
zero when `v` is `NaN` or nonpositive. -/
def jsLoopCount (v : JSVal) : Nat :=
  match jsToNumber v with
  | none => 0
  | some n => if n ≤ 0 then 0 else (Int.ceil n).toNat

/-- JS division `count / v`, `none` when the result is not a finite number
(here only `0 / NaN` and `0 / 0`, both `NaN`, are reachable). -/
def jsDiv (count : Nat) (v : JSVal) : Option ℚ :=
  match jsToNumber v with
  | some n => if n = 0 then none else some ((count : ℚ) / n)
  | none => none

/-- `Number.prototype.toFixed(1)` for nonnegative rationals: round to the
nearest tenth, ties toward `+∞`, rendered with exactly one fractional
digit. -/
def toFixed1 (q : ℚ) : String :=
  let n : Nat := (Int.floor (q * 10 + 1 / 2)).toNat
  toString (n / 10) ++ "." ++ toString (n % 10)

/-- `formatOdds` from `probability.ts`.  The zero-probability literal is
quoted byte-for-byte from the source file, which contains the UTF-8
mojibake `"âˆž:1"` (the double-encoded form of `"∞:1"`). -/
def formatOdds (probability : ℚ) : String :=
  if probability = 0 then "âˆž:1"
  else if probability = 1 then "1:1"
  else toFixed1 ((1 - probability) / probability) ++ ":1"

/-- `formatOdds` applied to a possibly-`NaN` probability
(`NaN.toFixed(1)` is `"NaN"`). -/
def formatOddsJS : Option ℚ → String
  | some q => formatOdds q
  | none => "NaN:1"

/-- `ProbabilityResult` from `src/types/poker.ts`, for the code paths where
every number is finite. -/
structure ProbabilityResult where
  handType : Nat
  probability : ℚ
  percentage : ℚ
  odds : String
  occurrences : Int
  totalOutcomes : Nat
deriving DecidableEq, Repr

/-- `ProbabilityResult` as populated by `calculateUsingSimulation` at
runtime, where `numSimulations` may be a string and the derived numbers
may be `NaN`. -/
structure ProbabilityResultJS where
  handType : Nat
  probability : Option ℚ
  percentage : Option ℚ
  odds : String
  occurrences : Nat
  totalOutcomes : JSVal
deriving DecidableEq, Repr

/-- `handCounts[handType]` after the tally loop of
`calculateUsingSimulation`: evaluation failures are skipped. -/
def simCount (simulations : List (List Card)) (handType : Nat) : Nat :=
  simulations.countP fun simulatedCards =>
    match evaluatePokerHand simulatedCards with
    | .ok evaluation => decide (evaluation.handStrength = handType)
    | .error _ => false

/-- `calculateUsingSimulation` from `probability.ts`.  `shuffleFn` abstracts
the per-iteration random shuffle; `numSimulations` is kept as the raw JS
value it receives (`10000` from the default, a stage string from
`calculateUsingExact`). -/
def calculateUsingSimulation (shuffleFn : Nat → Deck → Deck)
    (playerHand communityCards : List Card) (numSimulations : JSVal) :
    List ProbabilityResultJS :=
  let knownCards := playerHand ++ communityCards
  let simulations := simulateDeal shuffleFn knownCards (jsLoopCount numSimulations)
  (List.range 10).map fun handType =>
    let count := simCount simulations handType
    let probability := jsDiv count numSimulations
    { handType := handType
      probability := probability
      percentage := probability.map fun p => p * 100
      odds := formatOddsJS probability
      occurrences := count
      totalOutcomes := numSimulations }

/-- `calculateUsingExact` from `probability.ts` line 123:
`calculateUsingSimulation(playerHand, communityCards, stage, 100000)`
passes `stage` into the three-parameter function's `numSimulations` slot;
the fourth argument `100000` is a JS extra argument and is dropped. -/
def calculateUsingExact (shuffleFn : Nat → Deck → Deck)
    (playerHand communityCards : List Card) (stage : String) :
    List ProbabilityResultJS :=
  calculateUsingSimulation shuffleFn playerHand communityCards (.str stage)

/-- `Record<HandStrength, number>` as used by the lookup path. -/
structure Dist where
  highCard : ℚ
  pair : ℚ
  twoPair : ℚ
  threeOfAKind : ℚ
  straight : ℚ
  flush : ℚ
  fullHouse : ℚ
  fourOfAKind : ℚ
  straightFlush : ℚ
  royalFlush : ℚ
deriving DecidableEq, Repr

/-- The sum of the ten entries (`Object.values(...).reduce((s, p) => s + p)`). -/
def distSum (d : Dist) : ℚ :=
  d.highCard + d.pair + d.twoPair + d.threeOfAKind + d.straight + d.flush +
    d.fullHouse + d.fourOfAKind + d.straightFlush + d.royalFlush

/-- `probabilities[handType] || 0` for `handType` 0..9. -/
def distGet (d : Dist) : Nat → ℚ
  | 0 => d.highCard
  | 1 => d.pair
  | 2 => d.twoPair
  | 3 => d.threeOfAKind
  | 4 => d.straight
  | 5 => d.flush
  | 6 => d.fullHouse
  | 7 => d.fourOfAKind
  | 8 => d.straightFlush
  | 9 => d.royalFlush
  | _ => 0

/-- `getBaseProbabilities` from `probability.ts` (decimal literals read as
exact rationals). -/
def getBaseProbabilities : Dist :=
  { highCard := 0.501177
    pair := 0.422569
    twoPair := 0.047539
    threeOfAKind := 0.021128
    straight := 0.003925
    flush := 0.001965
    fullHouse := 0.001441
    fourOfAKind := 0.000240
    straightFlush := 0.000015
    royalFlush := 0.000002 }

/-- `adjustProbabilitiesForHand` from `probability.ts`. -/
def adjustProbabilitiesForHand (baseProbabilities : Dist) (knownCards : List Card) :
    Dist :=
  let pairCount := (rankKeys knownCards).countP fun r => decide (countRank knownCards r = 2)
  let tripCount := (rankKeys knownCards).countP fun r => decide (countRank knownCards r = 3)
  let quadCount := (rankKeys knownCards).countP fun r => decide (countRank knownCards r = 4)
  if 0 < quadCount then
    { highCard := 0, pair := 0, twoPair := 0, threeOfAKind := 0, straight := 0,
      flush := 0, fullHouse := 0, fourOfAKind := 1.0, straightFlush := 0, royalFlush := 0 }
  else if 0 < tripCount then
    { highCard := 0, pair := 0, twoPair := 0, threeOfAKind := 0.6, straight := 0,
      flush := 0, fullHouse := 0.35, fourOfAKind := 0.05, straightFlush := 0,
      royalFlush := 0 }
  else if 2 ≤ pairCount then
    { highCard := 0, pair := 0, twoPair := 0.7, threeOfAKind := 0.03, straight := 0,
      flush := 0, fullHouse := 0.25, fourOfAKind := 0.02, straightFlush := 0,
      royalFlush := 0 }
  else if pairCount = 1 then
    { highCard := 0, pair := 0.18, twoPair := 0.23, threeOfAKind := 0.12,
      straight := 0.04, flush := 0.02, fullHouse := 0.025, fourOfAKind := 0.002,
      straightFlush := 0.0001, royalFlush := 0.000001 }
  else
    -- `Math.max(...Object.values(suitCounts))` is `-Infinity` on no cards,
    -- which compares below 3 and 4 exactly as the 0 used here.
    let maxSuitCount := ((suitKeys knownCards).map (countSuit knownCards)).foldr max 0
    let sortedValues := stableSort (fun y x => decide (y ≤ x)) (keysInOrder (knownCards.map Card.value))
    let straightDraw := (sortedValues.zip sortedValues.tail).countP fun p => decide (p.2 - p.1 = 1)
    let adjusted : Dist :=
      { highCard := baseProbabilities.highCard
        pair := baseProbabilities.pair
        twoPair := baseProbabilities.twoPair
        threeOfAKind := baseProbabilities.threeOfAKind
        straight := baseProbabilities.straight * (if 3 ≤ straightDraw then 3 else 1)
        flush := baseProbabilities.flush *
          (if 4 ≤ maxSuitCount then 8 else if 3 ≤ maxSuitCount then 2 else 1)
        fullHouse := baseProbabilities.fullHouse
        fourOfAKind := baseProbabilities.fourOfAKind
        straightFlush := baseProbabilities.straightFlush
        royalFlush := baseProbabilities.royalFlush }
    let total := distSum adjusted
    if 0 < total then
      { highCard := adjusted.highCard / total
        pair := adjusted.pair / total
        twoPair := adjusted.twoPair / total
        threeOfAKind := adjusted.threeOfAKind / total
        straight := adjusted.straight / total
        flush := adjusted.flush / total
        fullHouse := adjusted.fullHouse / total
        fourOfAKind := adjusted.fourOfAKind / total
        straightFlush := adjusted.straightFlush / total
        royalFlush := adjusted.royalFlush / total }
    else adjusted

/-- `Math.round`: round half toward `+∞`. -/
def jsRound (q : ℚ) : Int := Int.floor (q + 1 / 2)

/-- `createProbabilityResults` from `probability.ts`. -/
def createProbabilityResults (probabilities : Dist) (totalOutcomes : Nat) :
    List ProbabilityResult :=
  (List.range 10).map fun handType =>
    let probability := distGet probabilities handType
    { handType := handType
      probability := probability
      percentage := probability * 100
      odds := formatOdds probability
      occurrences := jsRound (probability * totalOutcomes)
      totalOutcomes := totalOutcomes }

/-- `calculateUsingLookup` from `probability.ts`. -/
def calculateUsingLookup (playerHand communityCards : List Card) :
    List ProbabilityResult :=
  let knownCards := playerHand ++ communityCards
  let totalKnownCards := knownCards.length
  let base := getBaseProbabilities
  let adjusted :=
    if 2 ≤ totalKnownCards then adjustProbabilitiesForHand base knownCards else base
  createProbabilityResults adjusted 1000

/-- The body of the `calculateOuts` loop: a remaining card is an out when
appending it to the known cards evaluates successfully to a hand strength
at least `targetHand`; an evaluation failure (the `catch` branch) is not
an out. -/
def isOut (knownCards : List Card) (targetHand : Nat) (card : Card) : Bool :=
  match evaluatePokerHand (knownCards ++ [card]) with
  | .ok evaluation => decide (targetHand ≤ evaluation.handStrength)
  | .error _ => false

/-- `calculateOuts` from `probability.ts` (the try/catch increment of the
loop is the predicate `isOut`). -/
def calculateOuts (playerHand communityCards : List Card) (targetHand : Nat) : Nat :=
  let knownCards := playerHand ++ communityCards
  let remainingCards := getRemainingCards knownCards
  remainingCards.foldl
    (fun outs card => if isOut knownCards targetHand card then outs + 1 else outs) 0

/-- `validateHandForEvaluation` from `card-utils/src/validation.ts`. -/
def validateHandForEvaluation (cards : List Card) : ValidationResult :=
  let errors :=
    (if cards.length < 5 then
      [{ code := "INSUFFICIENT_CARDS"
         message := "Hand evaluation requires at least 5 cards, got " ++
           toString cards.length : ValidationError }]
    else []) ++
    (if 7 < cards.length then
      [{ code := "TOO_MANY_CARDS"
         message := "Hand evaluation supports maximum 7 cards, got " ++
           toString cards.length : ValidationError }]
    else []) ++
    (let cardValidation := validateCards cards
     if cardValidation.isValid then [] else cardValidation.errors)
  { isValid := errors.isEmpty, errors := errors }

/-- `validation.errors[0].code` (only read when invalid, so the list is
nonempty on every reachable path). -/
def firstErrorCode : List ValidationError → String
  | [] => ""
  | e :: _ => e.code

/-- `evaluateHand` from `poker-engine.ts`. -/
def evaluateHand (cards : List Card) : Except String HandEvaluation :=
  let validation := validateHandForEvaluation cards
  if ¬ validation.isValid then .error (firstErrorCode validation.errors)
  else evaluatePokerHand cards

/-! ## Theorems -/

/-- C1: the claim says `preferredMethod = 'exact'` runs the Monte Carlo
simulation with 100,000 draws, so `totalOutcomes = 100000`.  In the source,
`calculateUsingExact` passes the `stage` string into the `numSimulations`
parameter (the literal `100000` is a discarded fourth argument), so the
simulation loop runs zero iterations (`i < NaN` is false), every
`occurrences` is 0, every `probability` is `NaN`, and `totalOutcomes` is
the stage string — never `100000`.  Evaluated here at the failing input
`playerHand = [A♠, K♥]`, `communityCards = []`, `stage = "pre-flop"`, for
every shuffle function. -/
theorem C1_exact_passes_stage_as_sample_count (shuffleFn : Nat → Deck → Deck) :
    (calculateUsingExact shuffleFn [createCard .spades .rA, createCard .hearts .rK] []
        "pre-flop").map
        (fun r => (r.totalOutcomes, r.occurrences, r.probability))
      = List.replicate 10 (JSVal.str "pre-flop", 0, none) ∧
    JSVal.str "pre-flop" ≠ JSVal.num 100000 := by
  refine ⟨rfl, ?_⟩
  intro h
  exact JSVal.noConfusion h

/-- C2: the claim says every validated input gives 10 lookup probabilities
summing to 1 within ±0.02, in particular when the known cards hold exactly
one pair.  At `playerHand = [A♠, A♥]`, `communityCards = []`,
`stage = "pre-flop"` — which passes validation — the one-pair branch of
`adjustProbabilitiesForHand` returns its fixed weight table un-normalized:
the ten probabilities sum to 0.617101, which is 0.382899 below 1, far
outside the ±0.02 tolerance (the repository's own contract test runs this
exact input and expects ≈1). -/
theorem C2_lookup_one_pair_sum_is_not_one :
    (validatePokerHand [createCard .spades .rA, createCard .hearts .rA] [] "pre-flop").isValid
        = true ∧
    (calculateUsingLookup [createCard .spades .rA, createCard .hearts .rA] []).length = 10 ∧
    ((calculateUsingLookup [createCard .spades .rA, createCard .hearts .rA] []).map
        (fun r => r.probability)).sum = 617101 / 1000000 ∧
    ((calculateUsingLookup [createCard .spades .rA, createCard .hearts .rA] []).map
        (fun r => r.probability)).sum < 1 - 2 / 100 := by
  have hprob : ((calculateUsingLookup [createCard .spades .rA, createCard .hearts .rA] []).map
      (fun r => r.probability))
      = [0, 0.18, 0.23, 0.12, 0.04, 0.02, 0.025, 0.002, 0.0001, 0.000001] := rfl
  refine ⟨rfl, rfl, ?_, ?_⟩
  · rw [hprob]; norm_num
  · rw [hprob]; norm_num

/-- C5: the claim says the odds string for probability 0 is `"∞:1"`.  The
source literal (probability.ts line 293) is the UTF-8 mojibake `"âˆž:1"`
— the double-encoded form of `"∞:1"` — so the code emits that corrupted
string instead; the probability-1 case is `"1:1"` as claimed. -/
theorem C5_formatOdds_zero_is_mojibake :
    formatOdds 0 = "âˆž:1" ∧ formatOdds 0 ≠ "∞:1" ∧ formatOdds 1 = "1:1" := by
  refine ⟨rfl, ?_, rfl⟩
  decide

/-- C6: for every valid `(suit, rank)` pair, `parseCard` applied to the id
of `createCard suit rank` succeeds and returns a card equal to the
original in all five fields (`suit`, `rank`, `value`, `display`, `id`). -/
theorem C6_createCard_parseCard_roundtrip :
    ∀ (suit : Suit) (rank : Rank),
      parseCard (createCard suit rank).id.data = .ok (createCard suit rank) := by
  intro suit rank
  cases suit <;> cases rank <;> rfl

/-- C9: `dealCards deck n` fails with `INSUFFICIENT_CARDS` exactly when `n`
exceeds the number of available cards; otherwise it succeeds with the
first `n` available cards dealt, the remaining available cards being the
original ones with those `n` removed from the front, and the used cards
being the original used cards followed by the dealt ones (the input deck
is a value and is not modified). -/
theorem C9_dealCards_spec (deck : Deck) (n : Nat) :
    (dealCards deck n = .error "INSUFFICIENT_CARDS" ↔ deck.availableCards.length < n) ∧
    (n ≤ deck.availableCards.length →
      dealCards deck n =
        .ok { dealtCards := deck.availableCards.take n
              remainingDeck :=
                { availableCards := deck.availableCards.drop n
                  usedCards := deck.usedCards ++ deck.availableCards.take n
                  totalCards := 52 } } ∧
      (deck.availableCards.take n).length = n ∧
      deck.availableCards.take n ++ deck.availableCards.drop n = deck.availableCards) := by
  constructor
  · constructor
    · intro h
      by_contra hn
      simp [dealCards, hn] at h
    · intro h
      simp [dealCards, h]
  · intro h
    have h' : ¬ (deck.availableCards.length < n) := not_lt.mpr h
    refine ⟨by simp [dealCards, h'], ?_, List.take_append_drop n _⟩
    rw [List.length_take, min_eq_left h]

lemma suitMap_isSome_iff (c : Char) :
    (suitMap c).isSome = true ↔ c ∈ (['H', 'D', 'C', 'S'] : List Char) := by
  by_cases h1 : c = 'H'
  · subst h1; decide
  by_cases h2 : c = 'D'
  · subst h2; decide
  by_cases h3 : c = 'C'
  · subst h3; decide
  by_cases h4 : c = 'S'
  · subst h4; decide
  constructor
  · intro h
    rw [suitMap, if_neg h1, if_neg h2, if_neg h3, if_neg h4] at h
    exact Bool.noConfusion h
  · intro h
    simp only [List.mem_cons, List.not_mem_nil, or_false] at h
    rcases h with rfl | rfl | rfl | rfl
    · exact absurd rfl h1
    · exact absurd rfl h2
    · exact absurd rfl h3
    · exact absurd rfl h4

lemma charToRank_isSome_iff (c : Char) :
    (charToRank c).isSome = true ↔
      c ∈ (['A', '2', '3', '4', '5', '6', '7', '8', '9', 'J', 'Q', 'K'] : List Char) := by
  by_cases h1 : c = 'A'
  · subst h1; decide
  by_cases h2 : c = '2'
  · subst h2; decide
  by_cases h3 : c = '3'
  · subst h3; decide
  by_cases h4 : c = '4'
  · subst h4; decide
  by_cases h5 : c = '5'
  · subst h5; decide
  by_cases h6 : c = '6'
  · subst h6; decide
  by_cases h7 : c = '7'
  · subst h7; decide
  by_cases h8 : c = '8'
  · subst h8; decide
  by_cases h9 : c = '9'
  · subst h9; decide
  by_cases h10 : c = 'J'
  · subst h10; decide
  by_cases h11 : c = 'Q'
  · subst h11; decide
  by_cases h12 : c = 'K'
  · subst h12; decide
  constructor
  · intro h
    rw [charToRank, if_neg h1, if_neg h2, if_neg h3, if_neg h4, if_neg h5, if_neg h6, if_neg h7, if_neg h8, if_neg h9, if_neg h10, if_neg h11, if_neg h12] at h
    exact Bool.noConfusion h
  · intro h
    simp only [List.mem_cons, List.not_mem_nil, or_false] at h
    rcases h with rfl | rfl | rfl | rfl | rfl | rfl | rfl | rfl | rfl | rfl | rfl | rfl
    · exact absurd rfl h1
    · exact absurd rfl h2
    · exact absurd rfl h3
    · exact absurd rfl h4
    · exact absurd rfl h5
    · exact absurd rfl h6
    · exact absurd rfl h7
    · exact absurd rfl h8
    · exact absurd rfl h9
    · exact absurd rfl h10
    · exact absurd rfl h11
    · exact absurd rfl h12

/-- C4: the claim says `parseCard` succeeds exactly on a rank token followed
by a suit letter *and nothing else*.  The code never looks past the suit
character: `parseCard "ASX"` succeeds (and returns the ace of spades), so
trailing characters are accepted, refuting the "and nothing else" part. -/
theorem C4_counterexample_trailing_chars_accepted :
    parseCard ['A', 'S', 'X'] = .ok (createCard .spades .rA) ∧
    parseCard ['A', 'S', 'X'] ≠ .error "INVALID_CARD_STRING" := by
  refine ⟨rfl, ?_⟩
  intro h
  exact Except.noConfusion h

/-- C4 (amended): `parseCard` succeeds exactly when the string starts with a
rank token (a single character `A`,`2`..`9`,`J`,`Q`,`K`, or the
two-character literal `10`) followed by a suit letter `H`/`D`/`C`/`S`
(case-insensitive); any characters after that prefix are ignored rather
than rejected.  Every failure is the error `InvalidCardString`. -/
theorem C4_parseCard_characterization (s : List Char) :
    ((parseCard s).isOk = true ↔
      (∃ c2 t, s = '1' :: '0' :: c2 :: t ∧
        jsToUpper c2 ∈ (['H', 'D', 'C', 'S'] : List Char)) ∨
      (∃ c0 c1 t, s = c0 :: c1 :: t ∧ ¬ (c0 = '1' ∧ c1 = '0') ∧
        c0 ∈ (['A', '2', '3', '4', '5', '6', '7', '8', '9', 'J', 'Q', 'K'] : List Char) ∧
        jsToUpper c1 ∈ (['H', 'D', 'C', 'S'] : List Char))) ∧
    ((parseCard s).isOk = false → parseCard s = .error "INVALID_CARD_STRING") := by
  match s with
  | [] =>
    refine ⟨?_, fun _ => rfl⟩
    simp [parseCard, Except.isOk, Except.toBool]
  | [c] =>
    refine ⟨?_, fun _ => rfl⟩
    simp [parseCard, Except.isOk, Except.toBool]
  | c0 :: c1 :: rest =>
    by_cases h10 : c0 = '1' ∧ c1 = '0'
    · obtain ⟨rfl, rfl⟩ := h10
      match rest with
      | [] =>
        refine ⟨⟨fun hok => ?_, ?_⟩, fun _ => rfl⟩
        · simp [parseCard, Except.isOk, Except.toBool] at hok
        · rintro (⟨c2, t, heq, _⟩ | ⟨a, b, t, heq, hne, _, _⟩)
          · injection heq with _ h
            injection h with _ h
            exact List.noConfusion h
          · injection heq with h1 h
            injection h with h2 _
            exact absurd ⟨h1.symm, h2.symm⟩ hne
      | c2 :: t =>
        have hred : parseCard ('1' :: '0' :: c2 :: t) =
            match suitMap (jsToUpper c2) with
            | none => .error "INVALID_CARD_STRING"
            | some suit => .ok (createCard suit .r10) := rfl
        cases hm : suitMap (jsToUpper c2) with
        | none =>
          rw [hred, hm]
          refine ⟨⟨fun hok => ?_, ?_⟩, fun _ => rfl⟩
          · simp [Except.isOk, Except.toBool] at hok
          · rintro (⟨c2', t', heq, hmem⟩ | ⟨a, b, t', heq, hne, _, _⟩)
            · injection heq with _ h
              injection h with _ h
              injection h with h3 _
              rw [← suitMap_isSome_iff, ← h3, hm] at hmem
              exact Bool.noConfusion hmem
            · injection heq with h1 h
              injection h with h2 _
              exact absurd ⟨h1.symm, h2.symm⟩ hne
        | some suit =>
          rw [hred, hm]
          refine ⟨⟨fun _ => ?_, fun _ => rfl⟩, fun hfail => ?_⟩
          · exact Or.inl ⟨c2, t, rfl, (suitMap_isSome_iff _).mp (by rw [hm]; rfl)⟩
          · simp [Except.isOk, Except.toBool] at hfail
    · have hred : parseCard (c0 :: c1 :: rest) =
          match suitMap (jsToUpper c1) with
          | none => .error "INVALID_CARD_STRING"
          | some suit =>
            match charToRank c0 with
            | none => .error "INVALID_CARD_STRING"
            | some rank => .ok (createCard suit rank) := by
        simp only [parseCard]
        rw [if_neg h10]
      cases hm : suitMap (jsToUpper c1) with
      | none =>
        rw [hred, hm]
        refine ⟨⟨fun hok => ?_, ?_⟩, fun _ => rfl⟩
        · simp [Except.isOk, Except.toBool] at hok
        · rintro (⟨c2, t, heq, _⟩ | ⟨a, b, t, heq, hne, hrank, hsuit⟩)
          · injection heq with h1 h
            injection h with h2 _
            exact absurd ⟨h1, h2⟩ h10
          · injection heq with h1 h
            injection h with h2 _
            rw [← suitMap_isSome_iff, ← h2, hm] at hsuit
            exact Bool.noConfusion hsuit
      | some suit =>
        cases hr : charToRank c0 with
        | none =>
          rw [hred, hm, hr]
          refine ⟨⟨fun hok => ?_, ?_⟩, fun _ => rfl⟩
          · simp [Except.isOk, Except.toBool] at hok
          · rintro (⟨c2, t, heq, _⟩ | ⟨a, b, t, heq, hne, hrank, hsuit⟩)
            · injection heq with h1 h
              injection h with h2 _
              exact absurd ⟨h1, h2⟩ h10
            · injection heq with h1 h
              injection h with h2 _
              rw [← charToRank_isSome_iff, ← h1, hr] at hrank
              exact Bool.noConfusion hrank
        | some rank =>
          rw [hred, hm, hr]
          refine ⟨⟨fun _ => ?_, fun _ => rfl⟩, fun hfail => ?_⟩
          · refine Or.inr ⟨c0, c1, rest, rfl, h10, ?_, ?_⟩
            · exact (charToRank_isSome_iff _).mp (by rw [hr]; rfl)
            · exact (suitMap_isSome_iff _).mp (by rw [hm]; rfl)
          · simp [Except.isOk, Except.toBool] at hfail

lemma mem_ite_singleton {P : Prop} [Decidable P] {r e : ValidationError}
    (h : e ∈ if P then [r] else ([] : List ValidationError)) : e = r := by
  by_cases hp : P
  · rw [if_pos hp] at h
    exact List.mem_singleton.mp h
  · rw [if_neg hp] at h
    exact absurd h (List.not_mem_nil e)

lemma cardErrors_code_mem (seen : List String) (card : Card) :
    ∀ e ∈ cardErrors seen card,
      e.code ∈ (["DUPLICATE_CARD", "INVALID_SUIT", "INVALID_RANK", "INVALID_VALUE",
        "INVALID_DISPLAY", "INVALID_ID"] : List String) := by
  intro e he
  unfold cardErrors at he
  simp only [List.mem_append] at he
  rcases he with ((((h | h) | h) | h) | h) | h <;> rw [mem_ite_singleton h] <;> simp

lemma validateCardsGo_code_mem (cards : List Card) :
    ∀ seen e, e ∈ validateCardsGo seen cards →
      e.code ∈ (["DUPLICATE_CARD", "INVALID_SUIT", "INVALID_RANK", "INVALID_VALUE",
        "INVALID_DISPLAY", "INVALID_ID"] : List String) := by
  induction cards with
  | nil =>
    intro seen e he
    simp [validateCardsGo] at he
  | cons c cs ih =>
    intro seen e he
    rw [validateCardsGo] at he
    rcases List.mem_append.mp he with h | h
    · exact cardErrors_code_mem _ _ e h
    · exact ih _ e h

lemma validateCards_code_ne (cards : List Card) (e : ValidationError)
    (he : e ∈ (validateCards cards).errors) :
    e.code ≠ "INVALID_PLAYER_HAND_SIZE" ∧ e.code ≠ "INVALID_COMMUNITY_CARDS" := by
  have h := validateCardsGo_code_mem cards [] e he
  constructor
  · intro hc
    rw [hc] at h
    exact absurd h (by decide)
  · intro hc
    rw [hc] at h
    exact absurd h (by decide)

lemma validatePokerHand_errors (playerHand communityCards : List Card) (stage : String) :
    (validatePokerHand playerHand communityCards stage).errors
      = (validateCards (playerHand ++ communityCards)).errors
        ++ (if stage ≠ "pre-flop" ∧ playerHand.length ≠ 2 then
              [{ code := "INVALID_PLAYER_HAND_SIZE"
                 message := "Player hand must have exactly 2 cards, got " ++
                   toString playerHand.length }]
            else [])
        ++ (match stageRequirements stage with
            | some expected =>
                if communityCards.length ≠ expected then
                  [{ code := "INVALID_COMMUNITY_CARDS"
                     message := stage ++ " stage requires " ++ toString expected ++
                       " community cards, got " ++ toString communityCards.length }]
                else []
            | none => []) := by
  by_cases h : (validateCards (playerHand ++ communityCards)).isValid
  · have hnil : (validateCards (playerHand ++ communityCards)).errors = [] :=
      List.isEmpty_iff.mp h
    simp [validatePokerHand, h, hnil]
  · simp [validatePokerHand, h]

/-- C7: `validatePokerHand` reports `InvalidPlayerHandSize` exactly when the
stage is not `pre-flop` and the player hand does not have exactly 2 cards
(never for `pre-flop`), reports `InvalidCommunityCards` exactly when the
community-card count differs from the stage's required count
(`pre-flop`: 0, `flop`: 3, `turn`: 4, `river`: 5), and includes every
card-level error produced by `validateCards` on the union. -/
theorem C7_validatePokerHand_spec (playerHand communityCards : List Card) (stage : String) :
    (("INVALID_PLAYER_HAND_SIZE" ∈
        (validatePokerHand playerHand communityCards stage).errors.map ValidationError.code) ↔
      stage ≠ "pre-flop" ∧ playerHand.length ≠ 2) ∧
    (stage = "pre-flop" →
      (("INVALID_COMMUNITY_CARDS" ∈
          (validatePokerHand playerHand communityCards stage).errors.map ValidationError.code) ↔
        communityCards.length ≠ 0)) ∧
    (stage = "flop" →
      (("INVALID_COMMUNITY_CARDS" ∈
          (validatePokerHand playerHand communityCards stage).errors.map ValidationError.code) ↔
        communityCards.length ≠ 3)) ∧
    (stage = "turn" →
      (("INVALID_COMMUNITY_CARDS" ∈
          (validatePokerHand playerHand communityCards stage).errors.map ValidationError.code) ↔
        communityCards.length ≠ 4)) ∧
    (stage = "river" →
      (("INVALID_COMMUNITY_CARDS" ∈
          (validatePokerHand playerHand communityCards stage).errors.map ValidationError.code) ↔
        communityCards.length ≠ 5)) ∧
    (∀ e ∈ (validateCards (playerHand ++ communityCards)).errors,
      e ∈ (validatePokerHand playerHand communityCards stage).errors) := by 
  have herr := validatePokerHand_errors playerHand communityCards stage
  refine ⟨?_, ?_, ?_, ?_, ?_, ?_⟩
  · rw [herr]
    simp only [List.map_append, List.mem_append, List.mem_map]
    constructor
    · rintro ((h | h) | h)
      · obtain ⟨e, he, hc⟩ := h
        exact absurd hc (validateCards_code_ne _ e he).1
      · split_ifs at h with hc
        · exact hc
        · simp at h
      · cases hs : stageRequirements stage with
        | none =>
          simp only [hs] at h
          simp at h
        | some expected =>
          simp only [hs] at h
          split_ifs at h with hc
          · simp at h
          · simp at h
    · intro hcond
      refine Or.inl (Or.inr ?_)
      simp only [if_pos hcond]
      exact ⟨_, List.mem_singleton_self _, rfl⟩
  · rintro rfl
    rw [herr]
    simp only [List.map_append, List.mem_append, List.mem_map]
    constructor
    · rintro ((h | h) | h)
      · obtain ⟨e, he, hc⟩ := h
        exact absurd hc (validateCards_code_ne _ e he).2
      · split_ifs at h with hc
        · simp at h
        · simp at h
      · by_cases hn : communityCards.length ≠ 0
        · exact hn
        · simp only [show stageRequirements "pre-flop" = some 0 from rfl, if_neg hn] at h
          simp at h
    · intro hn
      refine Or.inr ?_
      simp only [show stageRequirements "pre-flop" = some 0 from rfl, if_pos hn]
      exact ⟨_, List.mem_singleton_self _, rfl⟩
  · rintro rfl
    rw [herr]
    simp only [List.map_append, List.mem_append, List.mem_map]
    constructor
    · rintro ((h | h) | h)
      · obtain ⟨e, he, hc⟩ := h
        exact absurd hc (validateCards_code_ne _ e he).2
      · split_ifs at h with hc
        · simp at h
        · simp at h
      · by_cases hn : communityCards.length ≠ 3
        · exact hn
        · simp only [show stageRequirements "flop" = some 3 from rfl, if_neg hn] at h
          simp at h
    · intro hn
      refine Or.inr ?_
      simp only [show stageRequirements "flop" = some 3 from rfl, if_pos hn]
      exact ⟨_, List.mem_singleton_self _, rfl⟩
  · rintro rfl
    rw [herr]
    simp only [List.map_append, List.mem_append, List.mem_map]
    constructor
    · rintro ((h | h) | h)
      · obtain ⟨e, he, hc⟩ := h
        exact absurd hc (validateCards_code_ne _ e he).2
      · split_ifs at h with hc
        · simp at h
        · simp at h
      · by_cases hn : communityCards.length ≠ 4
        · exact hn
        · simp only [show stageRequirements "turn" = some 4 from rfl, if_neg hn] at h
          simp at h
    · intro hn
      refine Or.inr ?_
      simp only [show stageRequirements "turn" = some 4 from rfl, if_pos hn]
      exact ⟨_, List.mem_singleton_self _, rfl⟩
  · rintro rfl
    rw [herr]
    simp only [List.map_append, List.mem_append, List.mem_map]
    constructor
    · rintro ((h | h) | h)
      · obtain ⟨e, he, hc⟩ := h
        exact absurd hc (validateCards_code_ne _ e he).2
      · split_ifs at h with hc
        · simp at h
        · simp at h
      · by_cases hn : communityCards.length ≠ 5
        · exact hn
        · simp only [show stageRequirements "river" = some 5 from rfl, if_neg hn] at h
          simp at h
    · intro hn
      refine Or.inr ?_
      simp only [show stageRequirements "river" = some 5 from rfl, if_pos hn]
      exact ⟨_, List.mem_singleton_self _, rfl⟩
  · intro e he
    rw [herr]
    exact List.mem_append.mpr (Or.inl (List.mem_append.mpr (Or.inl he)))

lemma getCombinations_ne_nil {α : Type _} :
    ∀ (l : List α) (k : Nat), k ≤ l.length → getCombinations l k ≠ [] := by
  intro l
  induction l with
  | nil =>
    intro k hk
    match k with
    | 0 => simp [getCombinations]
    | k + 1 => exact absurd hk (by simp)
  | cons x xs ih =>
    intro k hk
    match k with
    | 0 => simp [getCombinations]
    | k + 1 =>
      simp only [getCombinations]
      intro happ
      rcases List.append_eq_nil.mp happ with ⟨_, h2⟩
      exact ih k (Nat.succ_le_succ_iff.mp hk) (List.map_eq_nil_iff.mp h2)

lemma pickBetter_isSome (b : HandEvaluation) (combo : List Card) :
    ∃ b', pickBetter (some b) combo = some b' := by
  show ∃ b',
    (if b.handStrength < (evaluateFiveCardHand combo).handStrength then
      some (evaluateFiveCardHand combo)
    else if (evaluateFiveCardHand combo).handStrength = b.handStrength ∧
        0 < compareHands (evaluateFiveCardHand combo) b then
      some (evaluateFiveCardHand combo)
    else some b) = some b'
  split_ifs <;> exact ⟨_, rfl⟩

lemma foldl_pickBetter_isSome (combos : List (List Card)) :
    ∀ b : HandEvaluation, ∃ e, combos.foldl pickBetter (some b) = some e := by
  induction combos with
  | nil =>
    intro b
    exact ⟨b, rfl⟩
  | cons c cs ih =>
    intro b
    rw [List.foldl_cons]
    obtain ⟨b', hb'⟩ := pickBetter_isSome b c
    rw [hb']
    exact ih b'

lemma findBestFiveCardHand_isSome (cards : List Card) (h : 5 ≤ cards.length) :
    ∃ e, findBestFiveCardHand cards = some e := by
  unfold findBestFiveCardHand
  cases hc : getCombinations cards 5 with
  | nil => exact absurd hc (getCombinations_ne_nil cards 5 h)
  | cons c cs =>
    rw [List.foldl_cons]
    exact foldl_pickBetter_isSome cs (evaluateFiveCardHand c)

lemma evaluatePokerHand_isOk (cards : List Card) (h : 5 ≤ cards.length) :
    (evaluatePokerHand cards).isOk = true := by
  unfold evaluatePokerHand
  rw [if_neg (by omega : ¬ cards.length < 5)]
  by_cases h5 : cards.length = 5
  · rw [if_pos h5]
    rfl
  · rw [if_neg h5]
    obtain ⟨e, he⟩ := findBestFiveCardHand_isSome cards h
    rw [he]
    rfl

/-- C10: the public `evaluateHand` rejects every structurally valid,
duplicate-free list of more than 7 cards with the error code
`TOO_MANY_CARDS`, even though the inner `evaluatePokerHand` accepts any
list of at least 5 cards. -/
theorem C10_evaluateHand_rejects_more_than_seven :
    (∀ cards : List Card, 7 < cards.length → (validateCards cards).isValid = true →
      evaluateHand cards = .error "TOO_MANY_CARDS") ∧
    (∀ cards : List Card, 5 ≤ cards.length → (evaluatePokerHand cards).isOk = true) := by
  constructor
  · intro cards h7 hvalid
    have herrs : (validateHandForEvaluation cards).errors
        = [{ code := "TOO_MANY_CARDS"
             message := "Hand evaluation supports maximum 7 cards, got " ++
               toString cards.length }] := by
      have hnil : (validateCards cards).errors = [] := List.isEmpty_iff.mp hvalid
      unfold validateHandForEvaluation
      rw [if_neg (by omega : ¬ cards.length < 5), if_pos h7]
      simp [hvalid]
    have hval : (validateHandForEvaluation cards).isValid = false := by
      have hiv : (validateHandForEvaluation cards).isValid
          = (validateHandForEvaluation cards).errors.isEmpty := rfl
      rw [hiv, herrs]
      rfl
    show (if ¬ (validateHandForEvaluation cards).isValid = true then
        Except.error (firstErrorCode (validateHandForEvaluation cards).errors)
      else evaluatePokerHand cards) = .error "TOO_MANY_CARDS"
    rw [if_pos (by rw [hval]; exact Bool.false_ne_true), herrs]
    rfl
  · exact evaluatePokerHand_isOk

/-- C10 witness: an 8-card valid hand is rejected with `TOO_MANY_CARDS`
while the inner evaluator accepts it. -/
theorem C10_witness :
    evaluateHand [createCard .spades .rA, createCard .hearts .rK, createCard .clubs .rQ,
        createCard .diamonds .rJ, createCard .spades .r9, createCard .hearts .r8,
        createCard .clubs .r7, createCard .diamonds .r6] = .error "TOO_MANY_CARDS" ∧
    (evaluatePokerHand [createCard .spades .rA, createCard .hearts .rK, createCard .clubs .rQ,
        createCard .diamonds .rJ, createCard .spades .r9, createCard .hearts .r8,
        createCard .clubs .r7, createCard .diamonds .r6]).isOk = true :=
  ⟨C10_evaluateHand_rejects_more_than_seven.1 _ (by decide) (by decide),
   C10_evaluateHand_rejects_more_than_seven.2 _ (by decide)⟩

lemma foldl_count_eq_countP {α : Type _} (p : α → Bool) :
    ∀ (l : List α) (acc : Nat),
      l.foldl (fun outs x => if p x then outs + 1 else outs) acc = acc + l.countP p := by
  intro l
  induction l with
  | nil =>
    intro acc
    simp
  | cons c cs ih =>
    intro acc
    rw [List.foldl_cons, List.countP_cons, ih]
    by_cases hp : p c = true
    · rw [if_pos hp, if_pos hp]
      omega
    · rw [if_neg hp, if_neg hp]
      omega

lemma keysInOrder_go_mem {α : Type _} [DecidableEq α] :
    ∀ (l acc : List α) (a : α),
      a ∈ l.foldl (fun acc x => if x ∈ acc then acc else acc ++ [x]) acc ↔
        a ∈ acc ∨ a ∈ l := by
  intro l
  induction l with
  | nil =>
    intro acc a
    simp
  | cons x xs ih =>
    intro acc a
    rw [List.foldl_cons]
    by_cases hx : x ∈ acc
    · rw [if_pos hx, ih]
      constructor
      · rintro (h | h)
        · exact Or.inl h
        · exact Or.inr (List.mem_cons_of_mem x h)
      · rintro (h | h)
        · exact Or.inl h
        · rcases List.mem_cons.mp h with rfl | h
          · exact Or.inl hx
          · exact Or.inr h
    · rw [if_neg hx, ih]
      constructor
      · rintro (h | h)
        · rcases List.mem_append.mp h with h | h
          · exact Or.inl h
          · exact Or.inr (List.mem_cons.mpr (Or.inl (List.mem_singleton.mp h)))
        · exact Or.inr (List.mem_cons_of_mem x h)
      · rintro (h | h)
        · exact Or.inl (List.mem_append.mpr (Or.inl h))
        · rcases List.mem_cons.mp h with rfl | h
          · exact Or.inl (List.mem_append.mpr (Or.inr (List.mem_singleton.mpr rfl)))
          · exact Or.inr h

lemma mem_keysInOrder {α : Type _} [DecidableEq α] (l : List α) (a : α) :
    a ∈ keysInOrder l ↔ a ∈ l := by
  rw [keysInOrder, keysInOrder_go_mem]
  simp

lemma keysInOrder_go_nodup {α : Type _} [DecidableEq α] :
    ∀ (l acc : List α), acc.Nodup →
      (l.foldl (fun acc x => if x ∈ acc then acc else acc ++ [x]) acc).Nodup := by
  intro l
  induction l with
  | nil =>
    intro acc h
    exact h
  | cons x xs ih =>
    intro acc h
    rw [List.foldl_cons]
    by_cases hx : x ∈ acc
    · rw [if_pos hx]
      exact ih acc h
    · rw [if_neg hx]
      refine ih (acc ++ [x]) ?_
      rw [List.nodup_append]
      exact ⟨h, List.nodup_singleton x, by simpa using hx⟩

lemma keysInOrder_nodup {α : Type _} [DecidableEq α] (l : List α) :
    (keysInOrder l).Nodup :=
  keysInOrder_go_nodup l [] List.nodup_nil

/-- C8: `calculateOuts` counts exactly the cards of the full 52-card deck
whose id is not among the known-card ids and whose addition makes the hand
evaluator return a hand strength at least the target (failed evaluations
not counted); consequently, when the known cards carry genuine deck ids,
the result plus the number of distinct known ids is at most 52. -/
theorem C8_calculateOuts_spec (playerHand communityCards : List Card) (targetHand : Nat) :
    calculateOuts playerHand communityCards targetHand
      = createDeck.availableCards.countP (fun card =>
          isOut (playerHand ++ communityCards) targetHand card &&
          decide (¬ ((playerHand ++ communityCards).map Card.id).contains card.id)) ∧
    ((∀ c ∈ playerHand ++ communityCards,
        c.id ∈ createDeck.availableCards.map Card.id) →
      calculateOuts playerHand communityCards targetHand
        + (keysInOrder ((playerHand ++ communityCards).map Card.id)).length ≤ 52) := by
  have hcount : calculateOuts playerHand communityCards targetHand
      = (getRemainingCards (playerHand ++ communityCards)).countP
          (isOut (playerHand ++ communityCards) targetHand) := by
    show (getRemainingCards (playerHand ++ communityCards)).foldl
        (fun outs card =>
          if isOut (playerHand ++ communityCards) targetHand card then outs + 1 else outs) 0
      = _
    rw [foldl_count_eq_countP]
    omega
  constructor
  · rw [hcount, getRemainingCards, List.countP_filter]
  · intro hwf
    have hle : calculateOuts playerHand communityCards targetHand
        ≤ (createDeck.availableCards.filter (fun card =>
            decide (¬ ((playerHand ++ communityCards).map Card.id).contains card.id))).length := by
      rw [hcount]
      have hrem : getRemainingCards (playerHand ++ communityCards)
          = createDeck.availableCards.filter (fun card =>
              decide (¬ ((playerHand ++ communityCards).map Card.id).contains card.id)) := rfl
      rw [hrem]
      exact List.countP_le_length _
    have hsplit : (52 : Nat)
        = List.countP (fun card =>
              ((playerHand ++ communityCards).map Card.id).contains card.id)
            createDeck.availableCards
          + List.countP (fun card =>
              decide ¬(((playerHand ++ communityCards).map Card.id).contains card.id = true))
            createDeck.availableCards := by
      have h := List.length_eq_countP_add_countP
        (fun card => ((playerHand ++ communityCards).map Card.id).contains card.id)
        createDeck.availableCards
      rw [show createDeck.availableCards.length = 52 from rfl] at h
      exact h
    have hqlen : (createDeck.availableCards.filter (fun card =>
          decide (¬ ((playerHand ++ communityCards).map Card.id).contains card.id))).length
        = List.countP (fun card =>
            decide ¬(((playerHand ++ communityCards).map Card.id).contains card.id = true))
          createDeck.availableCards :=
      (List.countP_eq_length_filter _ _).symm
    have hD : (keysInOrder ((playerHand ++ communityCards).map Card.id)).length
        ≤ List.countP (fun card =>
              ((playerHand ++ communityCards).map Card.id).contains card.id)
            createDeck.availableCards := by
      have hm : List.countP (fun card =>
              ((playerHand ++ communityCards).map Card.id).contains card.id)
            createDeck.availableCards
          = List.countP (fun i => ((playerHand ++ communityCards).map Card.id).contains i)
              (createDeck.availableCards.map Card.id) := by
        rw [List.countP_map]
        rfl
      rw [hm, List.countP_eq_length_filter]
      have hnodup := keysInOrder_nodup ((playerHand ++ communityCards).map Card.id)
      have hsub : keysInOrder ((playerHand ++ communityCards).map Card.id)
          ⊆ (createDeck.availableCards.map Card.id).filter
              (fun i => ((playerHand ++ communityCards).map Card.id).contains i) := by
        intro d hd
        have hdids : d ∈ (playerHand ++ communityCards).map Card.id :=
          (mem_keysInOrder _ _).mp hd
        obtain ⟨c, hc, rfl⟩ := List.mem_map.mp hdids
        refine List.mem_filter.mpr ⟨hwf c hc, ?_⟩
        exact List.elem_iff.mpr hdids
      classical
      calc (keysInOrder ((playerHand ++ communityCards).map Card.id)).length
          = (keysInOrder ((playerHand ++ communityCards).map Card.id)).toFinset.card :=
            (List.toFinset_card_of_nodup hnodup).symm
        _ ≤ (((createDeck.availableCards.map Card.id).filter
              (fun i => ((playerHand ++ communityCards).map Card.id).contains i))).toFinset.card :=
            Finset.card_le_card (fun a ha => by
              simp only [List.mem_toFinset] at ha ⊢
              exact hsub ha)
        _ ≤ _ := List.toFinset_card_le _
    omega

lemma insertStable_perm {α : Type _} (keep : α → α → Bool) (x : α) :
    ∀ l : List α, (insertStable keep x l).Perm (x :: l) := by
  intro l
  induction l with
  | nil => exact List.Perm.refl _
  | cons y ys ih =>
    unfold insertStable
    by_cases hk : keep y x = true
    · rw [if_pos hk]
      exact (List.Perm.cons y ih).trans (List.Perm.swap x y ys)
    · rw [if_neg hk]

lemma foldl_insertStable_perm {α : Type _} (keep : α → α → Bool) :
    ∀ (l acc : List α),
      (l.foldl (fun acc x => insertStable keep x acc) acc).Perm (acc ++ l) := by
  intro l
  induction l with
  | nil =>
    intro acc
    simp
  | cons x xs ih =>
    intro acc
    rw [List.foldl_cons]
    refine (ih (insertStable keep x acc)).trans ?_
    refine (List.Perm.append_right xs (insertStable_perm keep x acc)).trans ?_
    exact List.perm_middle.symm

lemma stableSort_perm {α : Type _} (keep : α → α → Bool) (l : List α) :
    (stableSort keep l).Perm l := by
  have h := foldl_insertStable_perm keep l []
  simpa [stableSort] using h

lemma insertStable_int_sorted (x : Int) :
    ∀ l : List Int, l.Sorted (· ≥ ·) →
      (insertStable (fun y x => decide (x ≤ y)) x l).Sorted (· ≥ ·) := by
  intro l
  induction l with
  | nil =>
    intro _
    exact List.sorted_singleton x
  | cons y ys ih =>
    intro hs
    rw [List.sorted_cons] at hs
    obtain ⟨hy, hys⟩ := hs
    unfold insertStable
    by_cases hk : x ≤ y
    · rw [if_pos (by simpa using hk)]
      rw [List.sorted_cons]
      refine ⟨?_, ih hys⟩
      intro b hb
      have hmem : b ∈ x :: ys :=
        (insertStable_perm (fun y x => decide (x ≤ y)) x ys).mem_iff.mp hb
      rcases List.mem_cons.mp hmem with rfl | hb'
      · exact hk
      · exact hy b hb'
    · rw [if_neg (by simpa using hk)]
      rw [List.sorted_cons]
      refine ⟨?_, List.sorted_cons.mpr ⟨hy, hys⟩⟩
      intro b hb
      rcases List.mem_cons.mp hb with rfl | hb'
      · exact le_of_not_le hk
      · exact le_trans (hy b hb') (le_of_not_le hk)

lemma foldl_insertStable_int_sorted :
    ∀ (l acc : List Int), acc.Sorted (· ≥ ·) →
      (l.foldl (fun acc x => insertStable (fun y x => decide (x ≤ y)) x acc) acc).Sorted
        (· ≥ ·) := by
  intro l
  induction l with
  | nil =>
    intro acc h
    exact h
  | cons x xs ih =>
    intro acc h
    rw [List.foldl_cons]
    exact ih _ (insertStable_int_sorted x acc h)

lemma sortIntDesc_sorted (l : List Int) :
    (stableSort (fun y x => decide (x ≤ y)) l).Sorted (· ≥ ·) :=
  foldl_insertStable_int_sorted l [] (List.sorted_nil)

lemma keysInOrder_perm {α : Type _} [DecidableEq α] {l₁ l₂ : List α} (h : l₁.Perm l₂) :
    (keysInOrder l₁).Perm (keysInOrder l₂) := by
  refine (List.perm_ext_iff_of_nodup (keysInOrder_nodup _) (keysInOrder_nodup _)).mpr ?_
  intro a
  rw [mem_keysInOrder, mem_keysInOrder]
  exact h.mem_iff

lemma any_perm {α : Type _} {l₁ l₂ : List α} (h : l₁.Perm l₂) (p : α → Bool) :
    l₁.any p = l₂.any p := by
  rw [Bool.eq_iff_iff, List.any_eq_true, List.any_eq_true]
  constructor
  · rintro ⟨x, hx, hp⟩
    exact ⟨x, h.mem_iff.mp hx, hp⟩
  · rintro ⟨x, hx, hp⟩
    exact ⟨x, h.mem_iff.mpr hx, hp⟩

lemma countRank_perm {m₁ m₂ : List Card} (h : m₁.Perm m₂) (r : Rank) :
    countRank m₁ r = countRank m₂ r :=
  (h.map Card.rank).count_eq r

lemma countSuit_perm {m₁ m₂ : List Card} (h : m₁.Perm m₂) (s : Suit) :
    countSuit m₁ s = countSuit m₂ s :=
  (h.map Card.suit).count_eq s

lemma find?_keysInOrder_isSome_perm {α : Type _} [DecidableEq α] {l₁ l₂ : List α}
    (h : l₁.Perm l₂) (p : α → Bool) :
    ((keysInOrder l₁).find? p).isSome = ((keysInOrder l₂).find? p).isSome := by
  rw [Bool.eq_iff_iff, List.find?_isSome, List.find?_isSome]
  constructor
  · rintro ⟨x, hx, hp⟩
    exact ⟨x, (mem_keysInOrder _ _).mpr (h.mem_iff.mp ((mem_keysInOrder _ _).mp hx)), hp⟩
  · rintro ⟨x, hx, hp⟩
    exact ⟨x, (mem_keysInOrder _ _).mpr (h.mem_iff.mpr ((mem_keysInOrder _ _).mp hx)), hp⟩

lemma uniqueValuesDesc_perm {m₁ m₂ : List Card} (h : m₁.Perm m₂) :
    uniqueValuesDesc m₁ = uniqueValuesDesc m₂ := by
  refine List.eq_of_perm_of_sorted ?_ (sortIntDesc_sorted _) (sortIntDesc_sorted _)
  refine (stableSort_perm _ _).trans (((keysInOrder_perm (h.map Card.value)).trans
    (stableSort_perm _ _).symm))

lemma checkFlush_isSome_eq (m : List Card) :
    (checkFlush m).isSome
      = ((suitKeys m).find? (fun suit => decide (5 ≤ countSuit m suit))).isSome := by
  unfold checkFlush
  cases hf : (suitKeys m).find? (fun suit => decide (5 ≤ countSuit m suit)) <;> rfl

lemma checkFlush_isSome_perm {m₁ m₂ : List Card} (h : m₁.Perm m₂) :
    (checkFlush m₁).isSome = (checkFlush m₂).isSome := by
  rw [checkFlush_isSome_eq, checkFlush_isSome_eq]
  have hp : (fun suit => decide (5 ≤ countSuit m₁ suit))
      = (fun suit => decide (5 ≤ countSuit m₂ suit)) := by
    funext s
    rw [countSuit_perm h]
  rw [suitKeys, suitKeys, hp]
  exact find?_keysInOrder_isSome_perm (h.map Card.suit) _

lemma findRankCount_isSome_perm {m₁ m₂ : List Card} (h : m₁.Perm m₂) (k : Nat) :
    ((rankKeys m₁).find? (fun r => decide (countRank m₁ r = k))).isSome
      = ((rankKeys m₂).find? (fun r => decide (countRank m₂ r = k))).isSome := by
  have hp : (fun r => decide (countRank m₁ r = k))
      = (fun r => decide (countRank m₂ r = k)) := by
    funext r
    rw [countRank_perm h]
  rw [rankKeys, rankKeys, hp]
  exact find?_keysInOrder_isSome_perm (h.map Card.rank) _

lemma checkStraight_isSome_eq (m : List Card) :
    (checkStraight m).isSome
      = ((findStraightHigh (uniqueValuesDesc m)).isSome ||
          (m.any (fun c => decide (c.rank = .rA)) &&
           m.any (fun c => decide (c.rank = .r2)) &&
           m.any (fun c => decide (c.rank = .r3)) &&
           m.any (fun c => decide (c.rank = .r4)) &&
           m.any (fun c => decide (c.rank = .r5)))) := by
  unfold checkStraight
  cases hf : findStraightHigh (uniqueValuesDesc m) with
  | some hi => rfl
  | none =>
    rw [Option.isSome_none, Bool.false_or]
    by_cases hw : (m.any (fun c => decide (c.rank = .rA)) &&
        m.any (fun c => decide (c.rank = .r2)) &&
        m.any (fun c => decide (c.rank = .r3)) &&
        m.any (fun c => decide (c.rank = .r4)) &&
        m.any (fun c => decide (c.rank = .r5))) = true
    · rw [if_pos hw, hw]
      rfl
    · rw [if_neg hw]
      simp only [Option.isSome_none]
      exact (Bool.not_eq_true _).mp (fun hc => hw hc) |>.symm

lemma checkStraight_isSome_perm {m₁ m₂ : List Card} (h : m₁.Perm m₂) :
    (checkStraight m₁).isSome = (checkStraight m₂).isSome := by
  rw [checkStraight_isSome_eq, checkStraight_isSome_eq, uniqueValuesDesc_perm h,
    any_perm h, any_perm h, any_perm h, any_perm h, any_perm h]

lemma checkRoyalFlush_isSome_eq (m : List Card) :
    (checkRoyalFlush m).isSome
      = ((checkFlush m).isSome && royalRanks.all (fun r => (m.map Card.rank).contains r)) := by
  unfold checkRoyalFlush
  cases hf : checkFlush m with
  | none => rfl
  | some f =>
    rw [Option.isSome_some, Bool.true_and]
    by_cases hr : royalRanks.all (fun r => (m.map Card.rank).contains r) = true
    · rw [if_pos hr, hr]
      rfl
    · rw [if_neg hr]
      simp only [Option.isSome_none]
      exact (Bool.not_eq_true _).mp (fun hc => hr hc) |>.symm

lemma contains_perm {α : Type _} [DecidableEq α] {l₁ l₂ : List α} (h : l₁.Perm l₂) (a : α) :
    l₁.contains a = l₂.contains a := by
  rw [Bool.eq_iff_iff]
  constructor
  · intro hc
    exact List.elem_iff.mpr (h.mem_iff.mp (List.elem_iff.mp hc))
  · intro hc
    exact List.elem_iff.mpr (h.mem_iff.mpr (List.elem_iff.mp hc))

lemma checkRoyalFlush_isSome_perm {m₁ m₂ : List Card} (h : m₁.Perm m₂) :
    (checkRoyalFlush m₁).isSome = (checkRoyalFlush m₂).isSome := by
  rw [checkRoyalFlush_isSome_eq, checkRoyalFlush_isSome_eq, checkFlush_isSome_perm h]
  have hall : (fun r => (m₁.map Card.rank).contains r)
      = (fun r => (m₂.map Card.rank).contains r) := by
    funext r
    exact contains_perm (h.map Card.rank) r
  rw [hall]

lemma checkStraightFlush_isSome_eq (m : List Card) :
    (checkStraightFlush m).isSome = ((checkFlush m).isSome && (checkStraight m).isSome) := by
  unfold checkStraightFlush
  cases hf : checkFlush m <;> cases hs : checkStraight m <;> rfl

lemma checkStraightFlush_isSome_perm {m₁ m₂ : List Card} (h : m₁.Perm m₂) :
    (checkStraightFlush m₁).isSome = (checkStraightFlush m₂).isSome := by
  rw [checkStraightFlush_isSome_eq, checkStraightFlush_isSome_eq,
    checkFlush_isSome_perm h, checkStraight_isSome_perm h]

lemma checkFourOfAKind_isSome_eq (m : List Card) :
    (checkFourOfAKind m).isSome
      = ((rankKeys m).find? (fun r => decide (countRank m r = 4))).isSome := by
  unfold checkFourOfAKind
  cases hf : (rankKeys m).find? (fun r => decide (countRank m r = 4)) <;> rfl

lemma checkFourOfAKind_isSome_perm {m₁ m₂ : List Card} (h : m₁.Perm m₂) :
    (checkFourOfAKind m₁).isSome = (checkFourOfAKind m₂).isSome := by
  rw [checkFourOfAKind_isSome_eq, checkFourOfAKind_isSome_eq]
  exact findRankCount_isSome_perm h 4

lemma checkFullHouse_isSome_eq (m : List Card) :
    (checkFullHouse m).isSome
      = (((rankKeys m).find? (fun r => decide (countRank m r = 3))).isSome &&
         ((rankKeys m).find? (fun r => decide (countRank m r = 2))).isSome) := by
  unfold checkFullHouse
  cases h3 : (rankKeys m).find? (fun r => decide (countRank m r = 3)) <;>
    cases h2 : (rankKeys m).find? (fun r => decide (countRank m r = 2)) <;> rfl

lemma checkFullHouse_isSome_perm {m₁ m₂ : List Card} (h : m₁.Perm m₂) :
    (checkFullHouse m₁).isSome = (checkFullHouse m₂).isSome := by
  rw [checkFullHouse_isSome_eq, checkFullHouse_isSome_eq,
    findRankCount_isSome_perm h 3, findRankCount_isSome_perm h 2]

lemma checkThreeOfAKind_isSome_eq (m : List Card) :
    (checkThreeOfAKind m).isSome
      = ((rankKeys m).find? (fun r => decide (countRank m r = 3))).isSome := by
  unfold checkThreeOfAKind
  cases hf : (rankKeys m).find? (fun r => decide (countRank m r = 3)) <;> rfl

lemma checkThreeOfAKind_isSome_perm {m₁ m₂ : List Card} (h : m₁.Perm m₂) :
    (checkThreeOfAKind m₁).isSome = (checkThreeOfAKind m₂).isSome := by
  rw [checkThreeOfAKind_isSome_eq, checkThreeOfAKind_isSome_eq]
  exact findRankCount_isSome_perm h 3

lemma checkOnePair_isSome_eq (m : List Card) :
    (checkOnePair m).isSome
      = ((rankKeys m).find? (fun r => decide (countRank m r = 2))).isSome := by
  unfold checkOnePair
  cases hf : (rankKeys m).find? (fun r => decide (countRank m r = 2)) <;> rfl

lemma checkOnePair_isSome_perm {m₁ m₂ : List Card} (h : m₁.Perm m₂) :
    (checkOnePair m₁).isSome = (checkOnePair m₂).isSome := by
  rw [checkOnePair_isSome_eq, checkOnePair_isSome_eq]
  exact findRankCount_isSome_perm h 2

lemma checkTwoPair_isSome_eq (m : List Card) :
    (checkTwoPair m).isSome
      = decide (2 ≤ ((rankKeys m).filter (fun r => decide (countRank m r = 2))).length) := by
  unfold checkTwoPair
  by_cases h2 : 2 ≤ ((rankKeys m).filter (fun r => decide (countRank m r = 2))).length
  · rw [if_pos h2, decide_eq_true h2]
    rfl
  · rw [if_neg h2, decide_eq_false h2]
    rfl

lemma checkTwoPair_isSome_perm {m₁ m₂ : List Card} (h : m₁.Perm m₂) :
    (checkTwoPair m₁).isSome = (checkTwoPair m₂).isSome := by
  rw [checkTwoPair_isSome_eq, checkTwoPair_isSome_eq]
  have hp : (fun r => decide (countRank m₁ r = 2))
      = (fun r => decide (countRank m₂ r = 2)) := by
    funext r
    rw [countRank_perm h]
  rw [← List.countP_eq_length_filter, ← List.countP_eq_length_filter, hp, rankKeys, rankKeys,
    List.Perm.countP_eq _ (keysInOrder_perm (h.map Card.rank))]

lemma checkRoyalFlush_strength {m : List Card} {e : HandEvaluation}
    (h : checkRoyalFlush m = some e) : e.handStrength = HandStrength.ROYAL_FLUSH := by
  unfold checkRoyalFlush at h
  cases hf : checkFlush m with
  | none =>
    rw [hf] at h
    exact Option.noConfusion h
  | some f =>
    rw [hf] at h
    split_ifs at h
    cases h
    rfl

lemma checkStraightFlush_strength {m : List Card} {e : HandEvaluation}
    (h : checkStraightFlush m = some e) : e.handStrength = HandStrength.STRAIGHT_FLUSH := by
  unfold checkStraightFlush at h
  cases hf : checkFlush m <;> cases hs : checkStraight m <;> rw [hf, hs] at h <;>
    first
      | exact Option.noConfusion h
      | (cases h; rfl)

lemma checkFourOfAKind_strength {m : List Card} {e : HandEvaluation}
    (h : checkFourOfAKind m = some e) : e.handStrength = HandStrength.FOUR_OF_A_KIND := by
  unfold checkFourOfAKind at h
  cases hf : (rankKeys m).find? (fun r => decide (countRank m r = 4)) with
  | none =>
    rw [hf] at h
    exact Option.noConfusion h
  | some fourRank =>
    rw [hf] at h
    cases h
    rfl

lemma checkFullHouse_strength {m : List Card} {e : HandEvaluation}
    (h : checkFullHouse m = some e) : e.handStrength = HandStrength.FULL_HOUSE := by
  unfold checkFullHouse at h
  cases h3 : (rankKeys m).find? (fun r => decide (countRank m r = 3)) <;>
    cases h2 : (rankKeys m).find? (fun r => decide (countRank m r = 2)) <;>
      rw [h3, h2] at h <;>
        first
          | exact Option.noConfusion h
          | (cases h; rfl)

lemma checkFlush_strength {m : List Card} {e : HandEvaluation}
    (h : checkFlush m = some e) : e.handStrength = HandStrength.FLUSH := by
  unfold checkFlush at h
  cases hf : (suitKeys m).find? (fun suit => decide (5 ≤ countSuit m suit)) with
  | none =>
    rw [hf] at h
    exact Option.noConfusion h
  | some flushSuit =>
    rw [hf] at h
    cases h
    rfl

lemma checkStraight_strength {m : List Card} {e : HandEvaluation}
    (h : checkStraight m = some e) : e.handStrength = HandStrength.STRAIGHT := by
  unfold checkStraight at h
  cases hf : findStraightHigh (uniqueValuesDesc m) with
  | some hi =>
    rw [hf] at h
    cases h
    rfl
  | none =>
    rw [hf] at h
    split_ifs at h
    cases h
    rfl

lemma checkThreeOfAKind_strength {m : List Card} {e : HandEvaluation}
    (h : checkThreeOfAKind m = some e) : e.handStrength = HandStrength.THREE_OF_A_KIND := by
  unfold checkThreeOfAKind at h
  cases hf : (rankKeys m).find? (fun r => decide (countRank m r = 3)) with
  | none =>
    rw [hf] at h
    exact Option.noConfusion h
  | some threeRank =>
    rw [hf] at h
    cases h
    rfl

lemma checkTwoPair_strength {m : List Card} {e : HandEvaluation}
    (h : checkTwoPair m = some e) : e.handStrength = HandStrength.TWO_PAIR := by
  simp only [checkTwoPair] at h
  split_ifs at h
  cases h
  rfl

lemma checkOnePair_strength {m : List Card} {e : HandEvaluation}
    (h : checkOnePair m = some e) : e.handStrength = HandStrength.PAIR := by
  unfold checkOnePair at h
  cases hf : (rankKeys m).find? (fun r => decide (countRank m r = 2)) with
  | none =>
    rw [hf] at h
    exact Option.noConfusion h
  | some pairRank =>
    rw [hf] at h
    cases h
    rfl

/-- The category of a 5-card hand as decided by the ordered chain of checks:
this is the `handStrength` that `evaluateFiveCardHand` returns. -/
def rank5 (m : List Card) : Nat :=
  if (checkRoyalFlush m).isSome then HandStrength.ROYAL_FLUSH
  else if (checkStraightFlush m).isSome then HandStrength.STRAIGHT_FLUSH
  else if (checkFourOfAKind m).isSome then HandStrength.FOUR_OF_A_KIND
  else if (checkFullHouse m).isSome then HandStrength.FULL_HOUSE
  else if (checkFlush m).isSome then HandStrength.FLUSH
  else if (checkStraight m).isSome then HandStrength.STRAIGHT
  else if (checkThreeOfAKind m).isSome then HandStrength.THREE_OF_A_KIND
  else if (checkTwoPair m).isSome then HandStrength.TWO_PAIR
  else if (checkOnePair m).isSome then HandStrength.PAIR
  else HandStrength.HIGH_CARD

lemma evaluateFiveCardHand_handStrength (l : List Card) :
    (evaluateFiveCardHand l).handStrength = rank5 (sortCardsDesc l) := by
  simp only [evaluateFiveCardHand, rank5]
  cases h9 : checkRoyalFlush (sortCardsDesc l) with
  | some e => simpa using checkRoyalFlush_strength h9
  | none =>
  cases h8 : checkStraightFlush (sortCardsDesc l) with
  | some e => simpa using checkStraightFlush_strength h8
  | none =>
  cases h7 : checkFourOfAKind (sortCardsDesc l) with
  | some e => simpa using checkFourOfAKind_strength h7
  | none =>
  cases h6 : checkFullHouse (sortCardsDesc l) with
  | some e => simpa using checkFullHouse_strength h6
  | none =>
  cases h5 : checkFlush (sortCardsDesc l) with
  | some e => simpa using checkFlush_strength h5
  | none =>
  cases h4 : checkStraight (sortCardsDesc l) with
  | some e => simpa using checkStraight_strength h4
  | none =>
  cases h3 : checkThreeOfAKind (sortCardsDesc l) with
  | some e => simpa using checkThreeOfAKind_strength h3
  | none =>
  cases h2 : checkTwoPair (sortCardsDesc l) with
  | some e => simpa using checkTwoPair_strength h2
  | none =>
  cases h1 : checkOnePair (sortCardsDesc l) with
  | some e => simpa using checkOnePair_strength h1
  | none => simp

lemma rank5_perm {m₁ m₂ : List Card} (h : m₁.Perm m₂) : rank5 m₁ = rank5 m₂ := by
  unfold rank5
  rw [checkRoyalFlush_isSome_perm h, checkStraightFlush_isSome_perm h,
    checkFourOfAKind_isSome_perm h, checkFullHouse_isSome_perm h,
    checkFlush_isSome_perm h, checkStraight_isSome_perm h,
    checkThreeOfAKind_isSome_perm h, checkTwoPair_isSome_perm h,
    checkOnePair_isSome_perm h]

lemma evaluateFiveCardHand_handStrength_perm {l₁ l₂ : List Card} (h : l₁.Perm l₂) :
    (evaluateFiveCardHand l₁).handStrength = (evaluateFiveCardHand l₂).handStrength := by
  rw [evaluateFiveCardHand_handStrength, evaluateFiveCardHand_handStrength]
  exact rank5_perm (((stableSort_perm _ l₁).trans h).trans (stableSort_perm _ l₂).symm)

lemma getCombinations_eq_sublistsLen {α : Type _} :
    ∀ (l : List α) (k : Nat), getCombinations l k = List.sublistsLen k l := by
  intro l
  induction l with
  | nil =>
    intro k
    match k with
    | 0 =>
      rw [List.sublistsLen_zero]
      rfl
    | k + 1 =>
      rw [List.sublistsLen_succ_nil]
      rfl
  | cons x xs ih =>
    intro k
    match k with
    | 0 =>
      rw [List.sublistsLen_zero]
      rfl
    | k + 1 =>
      rw [List.sublistsLen_succ_cons]
      simp only [getCombinations]
      rw [ih (k + 1), ih k]

lemma pickBetter_strength (b : HandEvaluation) (combo : List Card) :
    ∃ b', pickBetter (some b) combo = some b' ∧
      b'.handStrength = max b.handStrength (evaluateFiveCardHand combo).handStrength := by
  show ∃ b', (if b.handStrength < (evaluateFiveCardHand combo).handStrength then
      some (evaluateFiveCardHand combo)
    else if (evaluateFiveCardHand combo).handStrength = b.handStrength ∧
        0 < compareHands (evaluateFiveCardHand combo) b then
      some (evaluateFiveCardHand combo)
    else some b) = some b' ∧
      b'.handStrength = max b.handStrength (evaluateFiveCardHand combo).handStrength
  split_ifs with h1 h2
  · exact ⟨_, rfl, by omega⟩
  · obtain ⟨h2', _⟩ := h2
    exact ⟨_, rfl, by omega⟩
  · exact ⟨_, rfl, by omega⟩

lemma foldl_pickBetter_strength (combos : List (List Card)) :
    ∀ b : HandEvaluation, ∃ e, combos.foldl pickBetter (some b) = some e ∧
      e.handStrength = (combos.map fun c => (evaluateFiveCardHand c).handStrength).foldl
        max b.handStrength := by
  induction combos with
  | nil =>
    intro b
    exact ⟨b, rfl, rfl⟩
  | cons c cs ih =>
    intro b
    rw [List.foldl_cons, List.map_cons, List.foldl_cons]
    obtain ⟨b', hb', hs'⟩ := pickBetter_strength b c
    rw [hb']
    obtain ⟨e, he, hse⟩ := ih b'
    exact ⟨e, he, by rw [hse, hs']⟩

lemma findBestFiveCardHand_strength (cards : List Card) (h : 5 ≤ cards.length) :
    ∃ e, findBestFiveCardHand cards = some e ∧
      e.handStrength = ((getCombinations cards 5).map fun c =>
        (evaluateFiveCardHand c).handStrength).foldl max 0 := by
  unfold findBestFiveCardHand
  cases hc : getCombinations cards 5 with
  | nil => exact absurd hc (getCombinations_ne_nil cards 5 h)
  | cons c cs =>
    rw [List.foldl_cons, List.map_cons, List.foldl_cons]
    have hz : max 0 (evaluateFiveCardHand c).handStrength
        = (evaluateFiveCardHand c).handStrength := by omega
    rw [hz]
    exact foldl_pickBetter_strength cs (evaluateFiveCardHand c)

/-- The 5-card hand strength as a function of the multiset of cards
(well defined by `evaluateFiveCardHand_handStrength_perm`). -/
def strength5M : Multiset Card → Nat :=
  Quotient.lift (fun l => (evaluateFiveCardHand l).handStrength)
    (fun _ _ hab => evaluateFiveCardHand_handStrength_perm hab)

lemma strengths_perm {l₁ l₂ : List Card} (h : l₁.Perm l₂) :
    ((getCombinations l₁ 5).map fun c => (evaluateFiveCardHand c).handStrength).Perm
      ((getCombinations l₂ 5).map fun c => (evaluateFiveCardHand c).handStrength) := by
  rw [getCombinations_eq_sublistsLen, getCombinations_eq_sublistsLen,
    ← Multiset.coe_eq_coe]
  have hfact : ∀ l : List Card,
      ((((List.sublistsLen 5 l).map fun c => (evaluateFiveCardHand c).handStrength) :
          List Nat) : Multiset Nat)
        = Multiset.map strength5M (Multiset.powersetCard 5 (l : Multiset Card)) := by
    intro l
    rw [Multiset.powersetCard_coe, Multiset.map_coe, List.map_map]
    rfl
  rw [hfact, hfact, Multiset.coe_eq_coe.mpr h]

/-- C3: the claim says any two orderings of the same card set give identical
`HandEvaluation`s.  For the 6-card set {2♠,3♥,4♣,5♦,6♠,7♥} the evaluator is
order-dependent: in one order the 7-high straight is found first, in the
reverse order the 6-high straight is found first and the tie-break
(`compareHands`, which ignores `bestHand` for kicker-less categories) never
replaces it — the two orderings return different `bestHand` and
`description`. -/
theorem C3_counterexample_order_changes_result :
    ([createCard .spades .r2, createCard .hearts .r3, createCard .clubs .r4,
      createCard .diamonds .r5, createCard .spades .r6, createCard .hearts .r7].Perm
      [createCard .hearts .r7, createCard .spades .r6, createCard .diamonds .r5,
       createCard .clubs .r4, createCard .hearts .r3, createCard .spades .r2]) ∧
    (evaluatePokerHand [createCard .spades .r2, createCard .hearts .r3, createCard .clubs .r4,
        createCard .diamonds .r5, createCard .spades .r6, createCard .hearts .r7]).map
        HandEvaluation.description = .ok "Straight, 7♥ high" ∧
    (evaluatePokerHand [createCard .hearts .r7, createCard .spades .r6,
        createCard .diamonds .r5, createCard .clubs .r4, createCard .hearts .r3,
        createCard .spades .r2]).map HandEvaluation.description = .ok "Straight, 6♠ high" ∧
    evaluatePokerHand [createCard .spades .r2, createCard .hearts .r3, createCard .clubs .r4,
        createCard .diamonds .r5, createCard .spades .r6, createCard .hearts .r7]
      ≠ evaluatePokerHand [createCard .hearts .r7, createCard .spades .r6,
          createCard .diamonds .r5, createCard .clubs .r4, createCard .hearts .r3,
          createCard .spades .r2] := by
  refine ⟨by decide, rfl, rfl, fun hcontra => ?_⟩
  have hd := congrArg (Except.map HandEvaluation.description) hcontra
  have h1 : (evaluatePokerHand [createCard .spades .r2, createCard .hearts .r3,
      createCard .clubs .r4, createCard .diamonds .r5, createCard .spades .r6,
      createCard .hearts .r7]).map HandEvaluation.description
      = .ok "Straight, 7♥ high" := rfl
  have h2 : (evaluatePokerHand [createCard .hearts .r7, createCard .spades .r6,
      createCard .diamonds .r5, createCard .clubs .r4, createCard .hearts .r3,
      createCard .spades .r2]).map HandEvaluation.description
      = .ok "Straight, 6♠ high" := rfl
  rw [h1, h2] at hd
  injection hd with hd'
  exact absurd hd' (by decide)

/-- C3 (amended): any two permutations of a card list give evaluations with
the same `handStrength` (and the same error on fewer than 5 cards);
`bestHand`, `kickers` and `description` may differ between orderings when
equally-ranked hands tie. -/
theorem C3_evaluatePokerHand_perm_strength (l₁ l₂ : List Card) (h : l₁.Perm l₂) :
    (evaluatePokerHand l₁).map HandEvaluation.handStrength
      = (evaluatePokerHand l₂).map HandEvaluation.handStrength := by
  have hlen := h.length_eq
  unfold evaluatePokerHand
  rw [← hlen]
  by_cases h5 : l₁.length < 5
  · rw [if_pos h5, if_pos h5]
  · rw [if_neg h5, if_neg h5]
    by_cases heq : l₁.length = 5
    · rw [if_pos heq, if_pos heq]
      show (Except.ok (evaluateFiveCardHand l₁)).map HandEvaluation.handStrength
        = (Except.ok (evaluateFiveCardHand l₂)).map HandEvaluation.handStrength
      simp only [Except.map]
      exact congrArg _ (evaluateFiveCardHand_handStrength_perm h)
    · rw [if_neg heq, if_neg heq]
      obtain ⟨e₁, he₁, hs₁⟩ := findBestFiveCardHand_strength l₁ (by omega)
      obtain ⟨e₂, he₂, hs₂⟩ := findBestFiveCardHand_strength l₂ (by omega)
      rw [he₁, he₂]
      show (Except.ok e₁).map HandEvaluation.handStrength
        = (Except.ok e₂).map HandEvaluation.handStrength
      simp only [Except.map]
      rw [hs₁, hs₂]
      exact congrArg _ ((strengths_perm h).foldl_eq 0)

/-- C3 witness: the amended theorem applied to a concrete 5-card hand and a
permutation of it. -/
theorem C3_witness :
    (evaluatePokerHand [createCard .spades .rA, createCard .hearts .rK, createCard .clubs .rQ,
        createCard .diamonds .rJ, createCard .spades .r9]).map HandEvaluation.handStrength
      = (evaluatePokerHand [createCard .spades .r9, createCard .diamonds .rJ,
          createCard .clubs .rQ, createCard .hearts .rK, createCard .spades .rA]).map
          HandEvaluation.handStrength :=
  C3_evaluatePokerHand_perm_strength _ _ (by decide)

end TexasHoldem
